import Mathlib

/-!
# Verification of the Shiny detection-and-enhancement engine

Shallow embedding of the SVG detector (`SVGDetector`, src/unnamed/part_000)
and the SVG enhancer (`SVGEnhancer`, src/content/svg-enhancer.js) of the
Shiny browser extension, together with proofs and refutations of the
specification claims about them.

DOM state is modelled explicitly: attributes are `Option String`
(`getAttribute` returns null or a string), inline style properties are
`String` (the empty string meaning "unset", as in CSSOM), `data-*`
attributes are `Option String` (reading an absent dataset entry yields
`undefined`, modelled as `none`), and class lists are `List String`
(`classList.add` is idempotent).  JavaScript truthiness of a
string-or-undefined value is `isTruthy` below: both `undefined` and the
empty string are falsy.
-/

namespace Shiny

/-- JS truthiness of a string-or-undefined value (`undefined` and `""` are falsy). -/
def isTruthy : Option String → Bool
  | none => false
  | some s => !(s == "")

/-- `classList.add`: appends the class unless already present. -/
def addClass (c : String) (cs : List String) : List String :=
  if cs.contains c then cs else cs ++ [c]

/-- `classList.remove`: removes all occurrences of the class. -/
def removeClass (c : String) (cs : List String) : List String :=
  cs.filter (fun x => !(x == c))

/-- Settings snapshot, the fields of `ShinyStorage.defaultSettings` consumed by the
enhancer (src/unnamed/part_000 lines 6-29). -/
structure Settings where
  enabled : Bool
  outlineEnabled : Bool
  outlineColor : String
  outlineWidth : Nat
  contrastEnabled : Bool
  contrastLevel : String
  highlightEnabled : Bool
  highlightColor : String
  focusIndicators : Bool
deriving DecidableEq, Repr

/-! ## Enhancer data model (src/content/svg-enhancer.js) -/

/-- A descendant element of an inline svg root.  Carries exactly the DOM state that
`SVGEnhancer` reads or writes: presentation attributes, the `paint-order` and
`--shiny-highlight-color` style properties, the `data-shiny-*` bookkeeping
attributes, the class list, and the interactivity features the highlight/focus
selectors test.  `inDefs` abstracts
`closest('clipPath') || closest('mask') || closest('defs')`; `computedThrows` and
`computedCursorPointer` abstract the `getComputedStyle` call of `addHighlighting`. -/
structure Shape where
  id : Nat
  tag : String
  inDefs : Bool
  stroke : Option String
  strokeWidth : Option String
  fill : Option String
  paintOrderStyle : String
  dsOriginalStroke : Option String
  dsOriginalStrokeWidth : Option String
  dsOriginalPaintOrder : Option String
  dsAddedTabindex : Option String
  classes : List String
  hasOnclick : Bool
  tabindexAttr : Option String
  role : Option String
  cursorAttr : Option String
  computedThrows : Bool
  computedCursorPointer : Bool
  highlightProp : String
deriving DecidableEq, Repr

/-- An inline svg root: its inline `filter` style, class list and (flattened,
document-ordered) descendant elements. -/
structure SvgRoot where
  id : Nat
  filterStyle : String
  classes : List String
  shapes : List Shape
deriving DecidableEq, Repr

/-- Outcome of reaching into an `<object>`/`<embed>` element
(`element.contentDocument || element.getSVGDocument?.()` and the subsequent
`querySelector('svg')`): the access can throw (cross-origin), yield no document,
yield a document without an svg root, or yield an inner svg root (identified by
the id of an `SvgRoot` of the world). -/
inductive ContentAccess : Type where
  | throwsOnAccess : ContentAccess
  | noDocument : ContentAccess
  | docWithoutSvg : ContentAccess
  | docWithSvg (inner : Nat) : ContentAccess
deriving DecidableEq, Repr

/-- An `<img>`, `<object>` or `<embed>` element as the enhancer sees it. -/
structure EmbedElem where
  id : Nat
  tag : String
  filterStyle : String
  classes : List String
  content : ContentAccess
deriving DecidableEq, Repr

/-- The per-element record stored in the `enhancedElements` WeakMap:
the original inline filter and the list of modified shape nodes (by id,
in push order, duplicates possible). -/
structure Stored where
  originalFilter : String
  modifiedShapes : List Nat
deriving DecidableEq, Repr

/-- The world the enhancer acts on: all svg roots (top documents and nested
embed documents), all img/object/embed elements, and the `enhancedElements`
record store keyed by node id. -/
structure World where
  svgs : List SvgRoot
  embeds : List EmbedElem
  recs : List (Nat × Stored)
deriving DecidableEq, Repr

/-- `WeakMap.set`: replace the binding for a key or append a fresh one. -/
def upsertRec (i : Nat) (r : Stored) : List (Nat × Stored) → List (Nat × Stored)
  | [] => [(i, r)]
  | p :: ps => if p.1 == i then (i, r) :: ps else p :: upsertRec i r ps

def World.findSvg (w : World) (i : Nat) : Option SvgRoot :=
  w.svgs.find? (fun sv => sv.id == i)

def World.findEmbed (w : World) (i : Nat) : Option EmbedElem :=
  w.embeds.find? (fun e => e.id == i)

def World.getRec (w : World) (i : Nat) : Option Stored :=
  (w.recs.find? (fun p => p.1 == i)).map Prod.snd

def World.setSvg (w : World) (sv : SvgRoot) : World :=
  { w with svgs := w.svgs.map (fun x => if x.id == sv.id then sv else x) }

def World.setEmbed (w : World) (e : EmbedElem) : World :=
  { w with embeds := w.embeds.map (fun x => if x.id == e.id then e else x) }

def World.setRec (w : World) (i : Nat) (r : Stored) : World :=
  { w with recs := upsertRec i r w.recs }

def World.delRec (w : World) (i : Nat) : World :=
  { w with recs := w.recs.filter (fun p => !(p.1 == i)) }

/-! ## Outline layer (`addOutlines` / `removeOutlines`, svg-enhancer.js 87-146) -/

/-- The tags of `svg.querySelectorAll('path, rect, circle, ellipse, polygon,
polyline, line, text')`. -/
def shapeTags : List String :=
  ["path", "rect", "circle", "ellipse", "polygon", "polyline", "line", "text"]

/-- A shape is treated by the outline layer when it matches the shape selector and
is not inside a `clipPath`/`mask`/`defs` subtree. -/
def outlineSelected (sh : Shape) : Bool :=
  shapeTags.contains sh.tag && !sh.inDefs

/-- The dataset capture of `addOutlines`:
`shape.dataset.shinyOriginalStroke = shape.getAttribute('stroke') || ''` and
likewise for stroke-width and `style.paintOrder`.  `getAttribute(...) || ''`
maps both an absent attribute and a present empty-valued attribute to `""`. -/
def captureOutline (sh : Shape) : Shape :=
  { sh with
    dsOriginalStroke := some (sh.stroke.getD "")
    dsOriginalStrokeWidth := some (sh.strokeWidth.getD "")
    dsOriginalPaintOrder := some sh.paintOrderStyle }

/-- `fill && fill !== 'none' && fill !== 'transparent'` (a present empty-valued
fill attribute is falsy). -/
def fillTruthy : Option String → Bool
  | none => false
  | some f => !(f == "") && !(f == "none") && !(f == "transparent")

/-- The unconditional part of the `addOutlines` loop body: set stroke and
stroke-width to the configured values, force paint order when the fill is
visible, add the outline marker class. -/
def applyOutline (s : Settings) (sh : Shape) : Shape :=
  let sh1 := { sh with
    stroke := some s.outlineColor
    strokeWidth := some (toString s.outlineWidth) }
  let sh2 := if fillTruthy sh1.fill then { sh1 with paintOrderStyle := "stroke fill" } else sh1
  { sh2 with classes := addClass "shiny-outlined" sh2.classes }

/-- The `addOutlines` loop: for each selected shape, capture originals when the
guard `!shape.dataset.shinyOriginalStroke` holds (pushing the shape onto
`stored.modifiedShapes`), then apply the outline.  Threads the modified-shapes
list. -/
def addOutlinesGo (s : Settings) : List Shape → List Nat → List Shape × List Nat
  | [], mods => ([], mods)
  | sh :: rest, mods =>
    if outlineSelected sh then
      let doCap := !(isTruthy sh.dsOriginalStroke)
      let sh1 := applyOutline s (if doCap then captureOutline sh else sh)
      let mods1 := if doCap then mods ++ [sh.id] else mods
      let pr := addOutlinesGo s rest mods1
      (sh1 :: pr.1, pr.2)
    else
      let pr := addOutlinesGo s rest mods
      (sh :: pr.1, pr.2)

/-- The `removeOutlines` loop body for one shape: restore stroke and stroke-width
from the dataset (removing the attribute when the stored value is falsy), restore
`style.paintOrder` (assigning an `undefined` dataset value leaves the style
unchanged, since CSSOM ignores the invalid string), and drop the marker class. -/
def restoreOutlineShape (sh : Shape) : Shape :=
  { sh with
    stroke := if isTruthy sh.dsOriginalStroke then sh.dsOriginalStroke else none
    strokeWidth := if isTruthy sh.dsOriginalStrokeWidth then sh.dsOriginalStrokeWidth else none
    paintOrderStyle := sh.dsOriginalPaintOrder.getD sh.paintOrderStyle
    classes := removeClass "shiny-outlined" sh.classes }

/-- Apply `f` to every shape whose id is `i` (node identity in the model). -/
def updateById (i : Nat) (f : Shape → Shape) (shs : List Shape) : List Shape :=
  shs.map (fun sh => if sh.id == i then f sh else sh)

/-- `removeOutlines`: iterate over `stored.modifiedShapes` restoring each pushed
shape.  The list itself is left untouched (the source never clears it). -/
def removeOutlines (shs : List Shape) (mods : List Nat) : List Shape :=
  mods.foldl (fun acc i => updateById i restoreOutlineShape acc) shs

/-! ## Contrast layer (`enhanceContrast`, svg-enhancer.js 153-165) -/

/-- The `contrastFilters` table with its `|| contrastFilters.high` fallback. -/
def contrastFilterFor (lvl : String) : String :=
  if lvl == "medium" then "contrast(1.3) saturate(1.2)"
  else if lvl == "high" then "contrast(1.6) saturate(1.4)"
  else if lvl == "maximum" then "contrast(2.0) saturate(1.6)"
  else "contrast(1.6) saturate(1.4)"

/-- `existingFilter ? existingFilter + ' ' + contrastFilter : contrastFilter`. -/
def combineFilter (orig cf : String) : String :=
  if orig == "" then cf else orig ++ " " ++ cf

/-! ## Highlight layer (`addHighlighting` / `removeHighlighting`, 172-206) -/

/-- The interactive-elements selector
`[onclick], [tabindex], a, [role="button"], [role="link"], [cursor="pointer"]`. -/
def highlightSel (sh : Shape) : Bool :=
  sh.hasOnclick || sh.tabindexAttr.isSome || sh.tag == "a" ||
    sh.role == some "button" || sh.role == some "link" || sh.cursorAttr == some "pointer"

/-- Mark one element highlightable and attach the configured color as the
`--shiny-highlight-color` custom property. -/
def highlightMark (s : Settings) (sh : Shape) : Shape :=
  { sh with
    classes := addClass "shiny-highlightable" sh.classes
    highlightProp := s.highlightColor }

/-- First `addHighlighting` pass (explicit interaction affordances). -/
def hl1 (s : Settings) (sh : Shape) : Shape :=
  if highlightSel sh then highlightMark s sh else sh

/-- Second `addHighlighting` pass: computed cursor style, per-element try/catch
(throwing elements are skipped), elements already marked are skipped. -/
def hl2 (s : Settings) (sh : Shape) : Shape :=
  if sh.computedThrows then sh
  else if sh.computedCursorPointer && !(sh.classes.contains "shiny-highlightable") then
    highlightMark s sh
  else sh

def addHighlighting (s : Settings) (shs : List Shape) : List Shape :=
  (shs.map (hl1 s)).map (hl2 s)

/-- `removeHighlighting` body for one element of
`svg.querySelectorAll('.shiny-highlightable')`. -/
def hlRemove1 (sh : Shape) : Shape :=
  if sh.classes.contains "shiny-highlightable" then
    { sh with
      classes := removeClass "shiny-highlightable" sh.classes
      highlightProp := "" }
  else sh

def removeHighlighting (shs : List Shape) : List Shape :=
  shs.map hlRemove1

/-! ## Focus layer (`addFocusIndicators` / `removeFocusIndicators`, 212-242) -/

/-- The focusable selector
`a, [tabindex]:not([tabindex="-1"]), [onclick], [role="button"], [role="link"]`. -/
def focusSel (sh : Shape) : Bool :=
  sh.tag == "a" ||
    (match sh.tabindexAttr with
      | some v => !(v == "-1")
      | none => false) ||
    sh.hasOnclick || sh.role == some "button" || sh.role == some "link"

/-- `addFocusIndicators` body for one selected element: add the marker class;
when the element has no tabindex yet is interactive by onclick or (any truthy)
role, assign a synthetic tabindex and remember it in the dataset. -/
def focusAdd1 (sh : Shape) : Shape :=
  if focusSel sh then
    let sh1 := { sh with classes := addClass "shiny-focusable" sh.classes }
    if sh1.tabindexAttr.isNone && (sh1.hasOnclick || isTruthy sh1.role) then
      { sh1 with tabindexAttr := some "0", dsAddedTabindex := some "true" }
    else sh1
  else sh

def addFocusIndicators (shs : List Shape) : List Shape :=
  shs.map focusAdd1

/-- `removeFocusIndicators` body for one element of
`svg.querySelectorAll('.shiny-focusable')`: drop the marker; remove the tabindex
only when it was synthetically assigned, and delete the dataset flag. -/
def focusRemove1 (sh : Shape) : Shape :=
  if sh.classes.contains "shiny-focusable" then
    let sh1 := { sh with classes := removeClass "shiny-focusable" sh.classes }
    if isTruthy sh1.dsAddedTabindex then
      { sh1 with tabindexAttr := none, dsAddedTabindex := none }
    else sh1
  else sh

def removeFocusIndicators (shs : List Shape) : List Shape :=
  shs.map focusRemove1

/-! ## Inline treatment (`enhanceInlineSVG`, svg-enhancer.js 38-79) -/

/-- `enhanceInlineSVG` on one svg root, given its current record (if any).
Returns the updated root and updated record: create the record on first
enhancement; outline layer (add or remove per toggle); contrast layer (combined
filter or the captured original); highlight layer; focus layer; finally the
`shiny-enhanced` marker class. -/
def enhanceInlineCore (s : Settings) (sv : SvgRoot) (st0 : Option Stored) :
    SvgRoot × Stored :=
  let st := st0.getD { originalFilter := sv.filterStyle, modifiedShapes := [] }
  let om := if s.outlineEnabled then addOutlinesGo s sv.shapes st.modifiedShapes
            else (removeOutlines sv.shapes st.modifiedShapes, st.modifiedShapes)
  let st1 := { st with modifiedShapes := om.2 }
  let filt := if s.contrastEnabled then
      combineFilter st1.originalFilter (contrastFilterFor s.contrastLevel)
    else st1.originalFilter
  let shs1 := if s.highlightEnabled then addHighlighting s om.1 else removeHighlighting om.1
  let shs2 := if s.focusIndicators then addFocusIndicators shs1 else removeFocusIndicators shs1
  ({ sv with
      shapes := shs2
      filterStyle := filt
      classes := addClass "shiny-enhanced" sv.classes }, st1)

def enhanceInlineSVG (i : Nat) (s : Settings) (w : World) : World :=
  match w.findSvg i with
  | none => w
  | some sv =>
    let pr := enhanceInlineCore s sv (w.getRec i)
    (w.setSvg pr.1).setRec i pr.2

/-! ## Filter-only treatment (`enhanceImgSVG`, svg-enhancer.js 249-271) -/

/-- The `contrastValues` table; JS renders the numbers `1.3`, `1.6`, `2.0` in a
template string as `"1.3"`, `"1.6"`, `"2"`. -/
def imgContrastNumFor (lvl : String) : String :=
  if lvl == "medium" then "1.3"
  else if lvl == "high" then "1.6"
  else if lvl == "maximum" then "2"
  else "1.6"

/-- `filters.join(' ')` of the contrast term and the drop-shadow outline term. -/
def imgFilterFor (s : Settings) : String :=
  let fs :=
    (if s.contrastEnabled then ["contrast(" ++ imgContrastNumFor s.contrastLevel ++ ")"] else [])
      ++ (if s.outlineEnabled then
            ["drop-shadow(0 0 " ++ toString s.outlineWidth ++ "px " ++ s.outlineColor ++ ")"]
          else [])
  String.intercalate " " fs

/-- `enhanceImgSVG`: capture the original filter once (record created only when
absent, never updated), assign the freshly built filter expression (replacing any
previous one), add the filter-only marker class. -/
def enhanceImgSVG (i : Nat) (s : Settings) (w : World) : World :=
  match w.findEmbed i with
  | none => w
  | some e =>
    let w1 := if (w.getRec i).isSome then w
              else w.setRec i { originalFilter := e.filterStyle, modifiedShapes := [] }
    w1.setEmbed { e with
      filterStyle := imgFilterFor s
      classes := addClass "shiny-enhanced-img" e.classes }

/-! ## Embedded treatment (`enhanceEmbeddedSVG`, svg-enhancer.js 278-296) -/

/-- The introspection attempt of `enhanceEmbeddedSVG`:
`element.contentDocument || element.getSVGDocument?.()` followed by
`svgDoc.querySelector('svg')`, inside `try`.  `.error` is the thrown
cross-origin `SecurityError`; `.ok none` covers both a null document and a
document without an svg root. -/
def introspect (e : EmbedElem) : Except Unit (Option Nat) :=
  match e.content with
  | .throwsOnAccess => .error ()
  | .noDocument => .ok none
  | .docWithoutSvg => .ok none
  | .docWithSvg j => .ok (some j)

/-- `enhanceEmbeddedSVG`: when the inner svg root is reachable, delegate to the
full inline treatment (and return); on a caught access error or a missing
root, fall back to the filter-only treatment of the embedding element.  The
function is total: the caught error never escapes. -/
def enhanceEmbeddedSVG (i : Nat) (s : Settings) (w : World) : World :=
  match w.findEmbed i with
  | none => w
  | some e =>
    match introspect e with
    | .ok (some j) => enhanceInlineSVG j s w
    | .ok none => enhanceImgSVG i s w
    | .error _ => enhanceImgSVG i s w

/-! ## `restore` and `enhance` (svg-enhancer.js 16-31, 302-323) -/

/-- `restore(element)`: no-op without a record; for an svg root restore the
filter, revert outlined shapes, strip highlight and focus markers, drop the
enhanced marker; for img/object/embed restore the filter and drop the
filter-only marker; finally delete the record. -/
def restore (i : Nat) (w : World) : World :=
  match w.getRec i with
  | none => w
  | some st =>
    match w.findSvg i with
    | some sv =>
      let shs := removeFocusIndicators (removeHighlighting (removeOutlines sv.shapes st.modifiedShapes))
      (w.setSvg { sv with
          filterStyle := st.originalFilter
          shapes := shs
          classes := removeClass "shiny-enhanced" sv.classes }).delRec i
    | none =>
      match w.findEmbed i with
      | some e =>
        (w.setEmbed { e with
            filterStyle := st.originalFilter
            classes := removeClass "shiny-enhanced-img" e.classes }).delRec i
      | none => w

/-- A detector notification as the enhancer consumes it: the `type` string and
the primary node (`svgInfo.element`). -/
structure GraphicInfo where
  dtype : String
  elemId : Nat
deriving DecidableEq, Repr

/-- `SVGEnhancer.enhance`: global-disable short-circuits to `restore`; otherwise
dispatch on the graphic type (an unrecognized type gets no treatment). -/
def enhance (info : GraphicInfo) (s : Settings) (w : World) : World :=
  if s.enabled then
    if info.dtype == "inline" || info.dtype == "lottie" then enhanceInlineSVG info.elemId s w
    else if info.dtype == "img" then enhanceImgSVG info.elemId s w
    else if info.dtype == "object" || info.dtype == "embed" then enhanceEmbeddedSVG info.elemId s w
    else w
  else restore info.elemId w

/-! ## Detector data model (src/unnamed/part_000, `SVGDetector`) -/

/-- A DOM element as the detector sees it: identity, tag name (lower case),
class list, the `src`/`type`/`data` attributes the raster/plugin selectors
test, the lottie-web data attributes (`data-animation-path` / `data-anim-loop`
/ `data-bm-renderer`, collapsed into one presence flag) and the `data-bm`
marker, the light children, and the optional shadow root (presence flag plus
shadow children, so an attached-but-empty shadow root is representable). -/
inductive DNode : Type where
  | mk (id : Nat) (tag : String) (classes : List String)
       (src : Option String) (typeAttr : Option String) (dataAttr : Option String)
       (lottieData : Bool) (dataBm : Bool)
       (kids : List DNode) (hasShadow : Bool) (shadowKids : List DNode)
deriving Repr

def DNode.id : DNode → Nat
  | .mk i _ _ _ _ _ _ _ _ _ _ => i

def DNode.tag : DNode → String
  | .mk _ t _ _ _ _ _ _ _ _ _ => t

def DNode.classes : DNode → List String
  | .mk _ _ c _ _ _ _ _ _ _ _ => c

def DNode.src : DNode → Option String
  | .mk _ _ _ s _ _ _ _ _ _ _ => s

def DNode.typeAttr : DNode → Option String
  | .mk _ _ _ _ ty _ _ _ _ _ _ => ty

def DNode.dataAttr : DNode → Option String
  | .mk _ _ _ _ _ da _ _ _ _ _ => da

def DNode.lottieData : DNode → Bool
  | .mk _ _ _ _ _ _ ld _ _ _ _ => ld

def DNode.dataBm : DNode → Bool
  | .mk _ _ _ _ _ _ _ db _ _ _ => db

def DNode.kids : DNode → List DNode
  | .mk _ _ _ _ _ _ _ _ ks _ _ => ks

def DNode.hasShadow : DNode → Bool
  | .mk _ _ _ _ _ _ _ _ _ hs _ => hs

def DNode.shadowKids : DNode → List DNode
  | .mk _ _ _ _ _ _ _ _ _ _ sks => sks

mutual

/-- A node together with its light descendants, in document order
(shadow trees are not pierced, as with `querySelectorAll`). -/
def DNode.lightElems : DNode → List DNode
  | .mk i t c s ty da ld db ks hs sks =>
    .mk i t c s ty da ld db ks hs sks :: forestElems ks

/-- All elements of a forest in document order, light tree only
(`root.querySelectorAll('*')`: shadow trees are not pierced). -/
def forestElems : List DNode → List DNode
  | [] => []
  | n :: ns => n.lightElems ++ forestElems ns

end

mutual

/-- The shadow roots reachable from one node (itself included), in the visit
order of `traverseShadowRoots`: when the node hosts a shadow root, visit it and
recurse into the shadow tree, then continue with the light descendants.  A
shadow root is represented by its host node. -/
def DNode.hostsFrom : DNode → List DNode
  | .mk i t c s ty da ld db ks hs sks =>
    (if hs then .mk i t c s ty da ld db ks hs sks :: forestHosts sks else [])
      ++ forestHosts ks

/-- The shadow roots reachable from a forest, in `traverseShadowRoots` order. -/
def forestHosts : List DNode → List DNode
  | [] => []
  | n :: ns => n.hostsFrom ++ forestHosts ns

end

/-- `querySelectorAllDeep(selector, root)`: the light-tree matches followed by,
for each shadow root in traversal order, the matches inside that shadow tree. -/
def querySelectorAllDeep (sel : DNode → Bool) (doc : List DNode) : List DNode :=
  (forestElems doc).filter sel
    ++ (forestHosts doc).flatMap (fun h => (forestElems h.shadowKids).filter sel)

/-- Occurrence of a node in a document forest: a root, a light descendant, or a
descendant through any number of shadow roots. -/
inductive InTree : DNode → DNode → Prop where
  | refl (n : DNode) : InTree n n
  | viaKid {v m n : DNode} : m ∈ n.kids → InTree v m → InTree v n
  | viaShadow {v m n : DNode} :
      n.hasShadow = true → m ∈ n.shadowKids → InTree v m → InTree v n

def InDoc (v : DNode) (doc : List DNode) : Prop :=
  ∃ r ∈ doc, InTree v r

/-! ### Detection selectors -/

/-- Substring containment, for the `[src*=".svg?"]` selector. -/
def containsSub (s pat : String) : Bool :=
  !((s.splitOn pat).length == 1)

def selSvg (n : DNode) : Bool := n.tag == "svg"

/-- `img[src$=".svg"], img[src*=".svg?"]`. -/
def selImg (n : DNode) : Bool :=
  n.tag == "img" &&
    (match n.src with
      | some s => s.endsWith ".svg" || containsSub s ".svg?"
      | none => false)

/-- `object[type="image/svg+xml"], object[data$=".svg"]`. -/
def selObject (n : DNode) : Bool :=
  n.tag == "object" &&
    (n.typeAttr == some "image/svg+xml" ||
      (match n.dataAttr with
        | some d => d.endsWith ".svg"
        | none => false))

/-- `embed[type="image/svg+xml"], embed[src$=".svg"]`. -/
def selEmbed (n : DNode) : Bool :=
  n.tag == "embed" &&
    (n.typeAttr == some "image/svg+xml" ||
      (match n.src with
        | some s => s.endsWith ".svg"
        | none => false))

/-- `.lottie, .bodymovin, .lottie-animation`. -/
def selLottieClass (n : DNode) : Bool :=
  n.classes.contains "lottie" || n.classes.contains "bodymovin" ||
    n.classes.contains "lottie-animation"

/-- `lottie-player, dotlottie-player`. -/
def selLottiePlayer (n : DNode) : Bool :=
  n.tag == "lottie-player" || n.tag == "dotlottie-player"

/-- `[data-animation-path], [data-anim-loop], [data-bm-renderer]`. -/
def selLottieData (n : DNode) : Bool := n.lottieData

/-- `svg[data-bm], svg.bodymovin`. -/
def selLottieSvg (n : DNode) : Bool :=
  n.tag == "svg" && (n.dataBm || n.classes.contains "bodymovin")

/-! ### Detector state -/

/-- An `onDetected` notification: the `type` string, the reported element's
identity and its tag name. -/
structure DReport where
  dtype : String
  elemId : Nat
  elemTag : String
deriving DecidableEq, Repr

/-- Detector state.  `observerActive` is the document-wide MutationObserver;
`shadowWeakMap` models the `shadowObservers` WeakMap registry (reset by `stop`),
while `shadowAttached` models the MutationObserver objects actually observing
shadow roots — `stop` replaces the WeakMap but never calls `disconnect()` on
them, so they stay attached.  `pendingLottie` is the multiset of containers with
an active lottie watch.  `seen` is the `detectedSVGs` WeakSet, `callbackSet`
whether `onSVGDetected` is non-null, `reported` the log of `onSVGDetected`
invocations in order. -/
structure DState where
  observerActive : Bool
  shadowWeakMap : List Nat
  shadowAttached : List Nat
  pendingLottie : List Nat
  seen : List Nat
  callbackSet : Bool
  reported : List DReport
deriving DecidableEq, Repr

/-- The constructed (Idle) detector. -/
def dInit : DState :=
  { observerActive := false, shadowWeakMap := [], shadowAttached := []
    pendingLottie := [], seen := [], callbackSet := false, reported := [] }

/-- `registerSVG`: report once per node identity, via the seen-set. -/
def registerSVG (info : DReport) (st : DState) : DState :=
  if st.seen.contains info.elemId then st
  else
    { st with
      seen := st.seen ++ [info.elemId]
      reported := if st.callbackSet then st.reported ++ [info] else st.reported }

/-- `observeShadowRoot`: idempotent through the WeakMap registry; attaching adds
a new observer. -/
def observeShadowRoot (h : Nat) (st : DState) : DState :=
  if st.shadowWeakMap.contains h then st
  else
    { st with
      shadowWeakMap := st.shadowWeakMap ++ [h]
      shadowAttached := st.shadowAttached ++ [h] }

/-- `observeLottieContainer`: install a pending watch on the container (and its
shadow root, if any). -/
def observeLottieContainer (c : Nat) (st : DState) : DState :=
  { st with pendingLottie := st.pendingLottie ++ [c] }

/-- Remove the first occurrence (one observer disconnecting). -/
def removeFirst (c : Nat) : List Nat → List Nat
  | [] => []
  | x :: xs => if x == c then xs else x :: removeFirst c xs

/-- `detectLottieContainers` (methods 1-4).  Methods 1-3 collect svgs already
present in class-marked containers, custom players (light or shadow), and
data-attribute containers; a player without an svg gets a pending watch
(threaded through the state).  Method 4 adds marker-carrying svgs not already
collected. -/
def detectLottieContainers (doc : List DNode) (st : DState) :
    List DReport × DState :=
  let m1 := (querySelectorAllDeep selLottieClass doc).filterMap
      (fun c => ((forestElems c.kids).find? selSvg).map
        (fun v => DReport.mk "lottie" v.id v.tag))
  let m2 := (querySelectorAllDeep selLottiePlayer doc).foldl
      (fun acc p =>
        let svgLight := (forestElems p.kids).find? selSvg
        let svg := match svgLight with
          | some v => some v
          | none =>
            if p.hasShadow then (forestElems p.shadowKids).find? selSvg else none
        match svg with
        | some v => (acc.1 ++ [DReport.mk "lottie" v.id v.tag], acc.2)
        | none => (acc.1, observeLottieContainer p.id acc.2))
      (([] : List DReport), st)
  let m3 := (querySelectorAllDeep selLottieData doc).filterMap
      (fun c => ((forestElems c.kids).find? selSvg).map
        (fun v => DReport.mk "lottie" v.id v.tag))
  let acc123 := m1 ++ m2.1 ++ m3
  let m4 := (querySelectorAllDeep selLottieSvg doc).foldl
      (fun acc v =>
        if (acc123 ++ acc).any (fun r => r.elemId == v.id) then acc
        else acc ++ [DReport.mk "lottie" v.id v.tag])
      ([] : List DReport)
  (acc123 ++ m4, m2.2)

/-- `detectExisting`: the four representation passes plus the lottie pass, all
through `querySelectorAllDeep`. -/
def detectExisting (doc : List DNode) (st : DState) : List DReport × DState :=
  let p1 := (querySelectorAllDeep selSvg doc).map (fun v => DReport.mk "inline" v.id v.tag)
  let p2 := (querySelectorAllDeep selImg doc).map (fun v => DReport.mk "img" v.id v.tag)
  let p3 := (querySelectorAllDeep selObject doc).map (fun v => DReport.mk "object" v.id v.tag)
  let p4 := (querySelectorAllDeep selEmbed doc).map (fun v => DReport.mk "embed" v.id v.tag)
  let l := detectLottieContainers doc st
  (p1 ++ p2 ++ p3 ++ p4 ++ l.1, l.2)

/-- `start(callback)`: set the callback, run the initial detection pass
registering every found graphic, then install the document observer and
observers on all existing shadow roots. -/
def start (doc : List DNode) (st : DState) : DState :=
  let st0 := { st with callbackSet := true }
  let ex := detectExisting doc st0
  let st1 := ex.1.foldl (fun s info => registerSVG info s) ex.2
  let st2 := { st1 with observerActive := true }
  (forestHosts doc).foldl (fun s h => observeShadowRoot h.id s) st2

/-- `stop()`: disconnect the document observer and replace the `shadowObservers`
WeakMap with a fresh one.  The shadow observers themselves are never
disconnected (`shadowAttached` is untouched), pending lottie watches keep
running, the seen-set and the callback are retained. -/
def stop (st : DState) : DState :=
  { st with observerActive := false, shadowWeakMap := [] }

/-- `checkNodeForSVG(node)`: an added svg is reported; an added lottie player
gets a pending watch; otherwise report the svgs among the light descendants,
watch the player descendants, and for each shadow-hosting light descendant
observe its shadow root and report the svgs directly inside that shadow tree;
finally do the same for the added node's own shadow root. -/
def checkNodeForSVG (n : DNode) (st : DState) : DState :=
  if n.tag == "svg" then registerSVG (DReport.mk "inline" n.id n.tag) st
  else if selLottiePlayer n then observeLottieContainer n.id st
  else
    let st1 := ((forestElems n.kids).filter selSvg).foldl
        (fun s v => registerSVG (DReport.mk "inline" v.id v.tag) s) st
    let st2 := ((forestElems n.kids).filter selLottiePlayer).foldl
        (fun s p => observeLottieContainer p.id s) st1
    let st3 := ((forestElems n.kids).filter (fun e => e.hasShadow)).foldl
        (fun s e =>
          let s1 := observeShadowRoot e.id s
          ((forestElems e.shadowKids).filter selSvg).foldl
            (fun s2 v => registerSVG (DReport.mk "inline" v.id v.tag) s2) s1)
        st2
    if n.hasShadow then
      let st4 := observeShadowRoot n.id st3
      ((forestElems n.shadowKids).filter selSvg).foldl
        (fun s v => registerSVG (DReport.mk "inline" v.id v.tag) s) st4
    else st3

/-- A lottie watch firing after its container resolved an svg `v` (the
`querySelector('svg')` result, hence `v.tag = "svg"` when dispatched): report
the graphic and disconnect that one observer. -/
def lottieResolve (c : Nat) (v : DNode) (st : DState) : DState :=
  if st.pendingLottie.contains c then
    let st1 := registerSVG (DReport.mk "lottie" v.id v.tag) st
    { st1 with pendingLottie := removeFirst c st1.pendingLottie }
  else st

/-- Processing of an element inserted into the light tree of the document:
only the document-wide observer observes that location, so the added node is
handled by `checkNodeForSVG` exactly when that observer is active. -/
def fireLightInsert (n : DNode) (st : DState) : DState :=
  if st.observerActive then checkNodeForSVG n st else st

/-- Processing of an element inserted directly into the shadow root of host
`h`: the document observer does not see shadow mutations; every observer still
attached to that shadow root runs `checkNodeForSVG` on the added node. -/
def fireShadowInsert (h : Nat) (n : DNode) (st : DState) : DState :=
  (st.shadowAttached.filter (fun x => x == h)).foldl
    (fun s _ => checkNodeForSVG n s) st

/-- One observable event in the life of a detector: a mutation-handler
invocation on some added node, a lottie watch resolving or timing out, or the
orchestrator calling `stop`/`start`. -/
inductive DStep : DState → DState → Prop where
  | checkStep (n : DNode) (st : DState) : DStep st (checkNodeForSVG n st)
  | lottieStep (c : Nat) (v : DNode) (st : DState) (hv : v.tag = "svg") :
      DStep st (lottieResolve c v st)
  | lottieTimeoutStep (c : Nat) (st : DState) :
      DStep st { st with pendingLottie := removeFirst c st.pendingLottie }
  | stopStep (st : DState) : DStep st (stop st)
  | startStep (doc : List DNode) (st : DState) : DStep st (start doc st)

/-- Number of reports concerning the node with identity `i`. -/
def countId (i : Nat) (l : List DReport) : Nat :=
  (l.map (fun r => r.elemId)).count i

/-! ## Concrete instances used by witnesses and counterexamples -/

/-- A `<path fill="red">` with no stroke, no stroke-width, no interactivity. -/
def shapeP : Shape :=
  { id := 2, tag := "path", inDefs := false, stroke := none, strokeWidth := none,
    fill := some "red", paintOrderStyle := "", dsOriginalStroke := none,
    dsOriginalStrokeWidth := none, dsOriginalPaintOrder := none, dsAddedTabindex := none,
    classes := [], hasOnclick := false, tabindexAttr := none, role := none,
    cursorAttr := none, computedThrows := false, computedCursorPointer := false,
    highlightProp := "" }

/-- A `<path stroke="" fill="red">`: the stroke attribute is present with the
empty-string value, distinct from `shapeP`'s absent stroke. -/
def shapeQ : Shape := { shapeP with id := 3, stroke := some "" }

def svgOne : SvgRoot := { id := 1, filterStyle := "", classes := [], shapes := [shapeP, shapeQ] }

def worldOne : World := { svgs := [svgOne], embeds := [], recs := [] }

/-- Settings with only the outline layer enabled. -/
def setOutline : Settings :=
  { enabled := true, outlineEnabled := true, outlineColor := "#00F", outlineWidth := 3,
    contrastEnabled := false, contrastLevel := "high", highlightEnabled := false,
    highlightColor := "#FF0", focusIndicators := false }

def setOutlineOff : Settings := { setOutline with outlineEnabled := false }

def setOff : Settings := { setOutline with enabled := false }

/-- A shape with an original `stroke="black"`, inside the nested document. -/
def innerShape : Shape := { shapeP with id := 21, stroke := some "black" }

/-- The svg root of the nested document of the `<object>` element. -/
def innerSvg : SvgRoot := { id := 20, filterStyle := "", classes := [], shapes := [innerShape] }

/-- A same-origin `<object type="image/svg+xml">` whose inner document is reachable. -/
def embedObj : EmbedElem :=
  { id := 10, tag := "object", filterStyle := "", classes := [], content := .docWithSvg 20 }

def worldEmbed : World := { svgs := [innerSvg], embeds := [embedObj], recs := [] }

/-- A bare inline `<svg>` element. -/
def svgNode9 : DNode := .mk 9 "svg" [] none none none false false [] false []

/-- A `<div>` hosting a shadow root that contains `svgNode9`. -/
def hostInner : DNode := .mk 5 "div" [] none none none false false [] true [svgNode9]

/-- A `<div>` hosting a shadow root that contains `hostInner`: inserting it puts
`svgNode9` two shadow levels below the insertion point. -/
def hostOuter : DNode := .mk 4 "div" [] none none none false false [] true [hostInner]

/-- A `<div>` hosting an (initially empty) shadow root. -/
def hostEmpty : DNode := .mk 5 "div" [] none none none false false [] true []

/-! ## Detector lemmas -/

theorem countId_append (i : Nat) (l1 l2 : List DReport) :
    countId i (l1 ++ l2) = countId i l1 + countId i l2 := by
  simp [countId, List.count_append]

theorem countId_snoc (i : Nat) (l : List DReport) (r : DReport) :
    countId i (l ++ [r]) = countId i l + if r.elemId = i then 1 else 0 := by
  simp [countId_append, countId, List.count_singleton']

theorem contains_iff_mem (l : List Nat) (a : Nat) : l.contains a = true ↔ a ∈ l := by
  induction l with
  | nil => simp
  | cons b tl ih =>
    rw [List.contains_cons]
    simp only [Bool.or_eq_true, beq_iff_eq, List.mem_cons]
    rw [ih]

theorem reg_seen_mono {i : Nat} {st : DState} (info : DReport) (h : i ∈ st.seen) :
    i ∈ (registerSVG info st).seen := by
  unfold registerSVG
  split
  · exact h
  · exact List.mem_append_left _ h

theorem reg_self_seen (info : DReport) (st : DState) :
    info.elemId ∈ (registerSVG info st).seen := by
  unfold registerSVG
  split
  · exact (contains_iff_mem _ _).mp (by assumption)
  · exact List.mem_append_right _ (by simp)

theorem reg_count_pres {i : Nat} {st : DState} (info : DReport) (h : i ∈ st.seen) :
    countId i (registerSVG info st).reported = countId i st.reported := by
  unfold registerSVG
  split
  · rfl
  · rename_i hnc
    have hne : info.elemId ≠ i := by
      intro he
      exact hnc ((contains_iff_mem _ _).mpr (he ▸ h))
    dsimp only
    split
    · simp [countId_snoc, hne]
    · rfl

theorem mem_reported_reg {r info : DReport} {st : DState}
    (h : r ∈ (registerSVG info st).reported) : r ∈ st.reported ∨ r = info := by
  unfold registerSVG at h
  split at h
  · exact Or.inl h
  · dsimp only at h
    split at h
    · rcases List.mem_append.mp h with h1 | h1
      · exact Or.inl h1
      · exact Or.inr (List.mem_singleton.mp h1)
    · exact Or.inl h

theorem observeShadowRoot_fields (h : Nat) (st : DState) :
    (observeShadowRoot h st).seen = st.seen ∧
      (observeShadowRoot h st).reported = st.reported ∧
      (observeShadowRoot h st).callbackSet = st.callbackSet := by
  unfold observeShadowRoot
  split <;> exact ⟨rfl, rfl, rfl⟩

theorem observeLottie_fields (c : Nat) (st : DState) :
    (observeLottieContainer c st).seen = st.seen ∧
      (observeLottieContainer c st).reported = st.reported ∧
      (observeLottieContainer c st).callbackSet = st.callbackSet :=
  ⟨rfl, rfl, rfl⟩

/-- Generic preservation of a state predicate along a left fold. -/
theorem foldl_preserve {α : Type} (P : DState → Prop) (g : DState → α → DState)
    (l : List α) (hg : ∀ st a, a ∈ l → P st → P (g st a)) :
    ∀ st, P st → P (l.foldl g st) := by
  induction l with
  | nil => exact fun st h => h
  | cons a tl ih =>
    intro st h
    exact ih (fun st' b hb => hg st' b (List.mem_cons_of_mem a hb)) (g st a)
      (hg st a (List.mem_cons_self a tl) h)

/-- Generic preservation of a predicate of the state component of a
reports-and-state accumulator along a left fold. -/
theorem foldl_pair_preserve {α : Type} (P : DState → Prop)
    (g : List DReport × DState → α → List DReport × DState) (l : List α)
    (hg : ∀ acc a, a ∈ l → P acc.2 → P (g acc a).2) :
    ∀ acc, P acc.2 → P ((l.foldl g acc).2) := by
  induction l with
  | nil => exact fun acc h => h
  | cons a tl ih =>
    intro acc h
    exact ih (fun acc' b hb => hg acc' b (List.mem_cons_of_mem a hb)) (g acc a)
      (hg acc a (List.mem_cons_self a tl) h)

/-- `detectLottieContainers` only installs pending watches: the seen-set, the
report log and the callback flag of its state component are unchanged. -/
theorem detectLottie_fields (doc : List DNode) (st : DState) :
    (detectLottieContainers doc st).2.seen = st.seen ∧
      (detectLottieContainers doc st).2.reported = st.reported ∧
      (detectLottieContainers doc st).2.callbackSet = st.callbackSet := by
  unfold detectLottieContainers
  refine foldl_pair_preserve
    (fun s => s.seen = st.seen ∧ s.reported = st.reported ∧ s.callbackSet = st.callbackSet)
    _ _ (fun acc p _ hp => ?_) (([], st)) ⟨rfl, rfl, rfl⟩
  dsimp only
  split
  · exact hp
  · exact hp

theorem detectExisting_fields (doc : List DNode) (st : DState) :
    (detectExisting doc st).2.seen = st.seen ∧
      (detectExisting doc st).2.reported = st.reported ∧
      (detectExisting doc st).2.callbackSet = st.callbackSet :=
  detectLottie_fields doc st

section Preservation

variable {P : DState → Prop}

/-- Closure of `P` under operations that keep the callback flag, the seen-set
and the report log unchanged (observing shadow roots or containers, toggling
the document observer, disconnecting watchers). -/
def SameClosed (P : DState → Prop) : Prop :=
  ∀ st st' : DState, st'.callbackSet = st.callbackSet → st'.seen = st.seen →
    st'.reported = st.reported → P st → P st'

theorem check_pres (n : DNode) (st : DState)
    (hreg : ∀ (info : DReport) (st0 : DState),
      info.dtype = "inline" → info.elemTag = "svg" → P st0 → P (registerSVG info st0))
    (hsame : SameClosed P) (h : P st) : P (checkNodeForSVG n st) := by
  have hregf : ∀ (l : List DNode) (st0 : DState), (∀ v ∈ l, v.tag = "svg") → P st0 →
      P (l.foldl (fun s v => registerSVG (DReport.mk "inline" v.id v.tag) s) st0) := by
    intro l st0 hl h0
    exact foldl_preserve P _ l (fun st' a ha h' => hreg _ st' rfl (hl a ha) h') st0 h0
  have hsvg : ∀ (l : List DNode), ∀ v ∈ l.filter selSvg, v.tag = "svg" := by
    intro l v hv
    have := List.of_mem_filter hv
    simpa [selSvg] using this
  have hlotf : ∀ (l : List DNode) (st0 : DState), P st0 →
      P (l.foldl (fun s p => observeLottieContainer p.id s) st0) :=
    fun l st0 h0 =>
      foldl_preserve P _ l
        (fun st' a _ h' => hsame st' (observeLottieContainer a.id st') rfl rfl rfl h') st0 h0
  have hobsreg : ∀ (l : List DNode) (hid : Nat) (st0 : DState),
      (∀ v ∈ l, v.tag = "svg") → P st0 →
      P (l.foldl (fun s2 v => registerSVG (DReport.mk "inline" v.id v.tag) s2)
          (observeShadowRoot hid st0)) := by
    intro l hid st0 hl h0
    obtain ⟨e1, e2, e3⟩ := observeShadowRoot_fields hid st0
    exact hregf l _ hl (hsame st0 _ e3 e1 e2 h0)
  have hshf : ∀ (l : List DNode) (st0 : DState), P st0 →
      P (l.foldl (fun s e =>
        ((forestElems e.shadowKids).filter selSvg).foldl
          (fun s2 v => registerSVG (DReport.mk "inline" v.id v.tag) s2)
          (observeShadowRoot e.id s)) st0) := by
    intro l st0 h0
    refine foldl_preserve P _ l (fun st' e _ h' => ?_) st0 h0
    exact hobsreg _ e.id st' (hsvg _) h'
  unfold checkNodeForSVG
  split
  · rename_i h1
    exact hreg _ st rfl (by simpa using h1) h
  · split
    · exact hsame st _ rfl rfl rfl h
    · split
      · refine hobsreg _ n.id _ (hsvg _) ?_
        exact hshf _ _ (hlotf ((forestElems n.kids).filter selLottiePlayer) _
          (hregf ((forestElems n.kids).filter selSvg) st (hsvg _) h))
      · exact hshf _ _ (hlotf ((forestElems n.kids).filter selLottiePlayer) _
          (hregf ((forestElems n.kids).filter selSvg) st (hsvg _) h))

theorem lottie_pres (c : Nat) (v : DNode) (st : DState) (hv : v.tag = "svg")
    (hreg : ∀ (info : DReport) (st0 : DState),
      info.dtype = "lottie" → info.elemTag = "svg" → P st0 → P (registerSVG info st0))
    (hsame : SameClosed P) (h : P st) : P (lottieResolve c v st) := by
  unfold lottieResolve
  split
  · have h1 := hreg (DReport.mk "lottie" v.id v.tag) st rfl hv h
    exact hsame (registerSVG (DReport.mk "lottie" v.id v.tag) st) _ rfl rfl rfl h1
  · exact h

theorem start_pres (doc : List DNode) (st : DState)
    (hreg : ∀ (info : DReport) (st0 : DState), P st0 → P (registerSVG info st0))
    (hsame2 : ∀ st st' : DState, st'.seen = st.seen → st'.reported = st.reported →
      P st → P st')
    (h : P st) : P (start doc st) := by
  unfold start
  have h0 : P { st with callbackSet := true } := hsame2 st _ rfl rfl h
  have h1 : P (detectExisting doc { st with callbackSet := true }).2 := by
    obtain ⟨e1, e2, _⟩ := detectExisting_fields doc { st with callbackSet := true }
    exact hsame2 _ _ e1 e2 h0
  have h2 := foldl_preserve P (fun s info => registerSVG info s)
      (detectExisting doc { st with callbackSet := true }).1
      (fun st' a _ h' => hreg a st' h')
      (detectExisting doc { st with callbackSet := true }).2 h1
  have h3 : P { ((detectExisting doc { st with callbackSet := true }).1.foldl
      (fun s info => registerSVG info s) (detectExisting doc { st with callbackSet := true }).2)
      with observerActive := true } :=
    hsame2 ((detectExisting doc { st with callbackSet := true }).1.foldl
      (fun s info => registerSVG info s)
      (detectExisting doc { st with callbackSet := true }).2) _ rfl rfl h2
  refine foldl_preserve P _ _ (fun st' a _ h' => ?_) _ h3
  obtain ⟨e1, e2, _⟩ := observeShadowRoot_fields a.id st'
  exact hsame2 st' _ e1 e2 h'

end Preservation

/-- The at-most-once invariant of an Active session: the callback is set, every
node identity has at most one report, and a node is in the seen-set exactly
when it has a report. -/
def DInv (st : DState) : Prop :=
  st.callbackSet = true ∧
    ∀ i : Nat, countId i st.reported ≤ 1 ∧ (i ∈ st.seen ↔ countId i st.reported = 1)

theorem DInv_congr {st st' : DState} (hc : st'.callbackSet = st.callbackSet)
    (hs : st'.seen = st.seen) (hr : st'.reported = st.reported) (h : DInv st) :
    DInv st' := by
  rw [DInv, hc, hs, hr]
  exact h

theorem reg_DInv (info : DReport) {st : DState} (h : DInv st) :
    DInv (registerSVG info st) := by
  obtain ⟨hcb, hinv⟩ := h
  unfold registerSVG
  split
  · exact ⟨hcb, hinv⟩
  · rename_i hnc
    have hnotmem : info.elemId ∉ st.seen := fun hm => hnc ((contains_iff_mem _ _).mpr hm)
    refine ⟨hcb, fun i => ?_⟩
    dsimp only
    by_cases hi : info.elemId = i
    · have hc0 : countId i st.reported = 0 := by
        have h1 := (hinv i).1
        have h2 : ¬ countId i st.reported = 1 := fun he => hnotmem (hi ▸ ((hinv i).2.mpr he))
        omega
      constructor
      · rw [countId_snoc, hc0, if_pos hi]
      · rw [countId_snoc, hc0, if_pos hi]
        simp [hi]
    · constructor
      · rw [countId_snoc, if_neg hi]
        simpa using (hinv i).1
      · rw [countId_snoc, if_neg hi]
        rw [List.mem_append]
        simp only [List.mem_singleton, Nat.add_zero]
        constructor
        · intro hm
          rcases hm with hm | hm
          · exact ((hinv i).2.mp hm)
          · exact absurd hm.symm hi
        · intro hc
          exact Or.inl ((hinv i).2.mpr hc)

theorem check_DInv (n : DNode) {st : DState} (h : DInv st) :
    DInv (checkNodeForSVG n st) :=
  check_pres n st (fun info st0 _ _ h0 => reg_DInv info h0)
    (fun _ _ hc hs hr h0 => DInv_congr hc hs hr h0) h

theorem start_DInv (doc : List DNode) (st : DState)
    (h : ∀ i : Nat, countId i st.reported ≤ 1 ∧ (i ∈ st.seen ↔ countId i st.reported = 1)) :
    DInv (start doc st) := by
  unfold start
  have h0 : DInv { st with callbackSet := true } := ⟨rfl, h⟩
  have h1 : DInv (detectExisting doc { st with callbackSet := true }).2 := by
    obtain ⟨e1, e2, e3⟩ := detectExisting_fields doc { st with callbackSet := true }
    exact DInv_congr e3 e1 e2 h0
  have h2 := foldl_preserve DInv (fun s info => registerSVG info s)
      (detectExisting doc { st with callbackSet := true }).1
      (fun st' a _ h' => reg_DInv a h')
      (detectExisting doc { st with callbackSet := true }).2 h1
  have h3 : DInv { ((detectExisting doc { st with callbackSet := true }).1.foldl
      (fun s info => registerSVG info s) (detectExisting doc { st with callbackSet := true }).2)
      with observerActive := true } := DInv_congr rfl rfl rfl h2
  refine foldl_preserve DInv _ _ (fun st' a _ h' => ?_) _ h3
  obtain ⟨e1, e2, e3⟩ := observeShadowRoot_fields a.id st'
  exact DInv_congr e3 e1 e2 h'

theorem step_DInv {st st' : DState} (hs : DStep st st') (h : DInv st) : DInv st' := by
  cases hs with
  | checkStep n st => exact check_DInv n h
  | lottieStep c v st hv =>
    exact lottie_pres c v st hv (fun info st0 _ _ h0 => reg_DInv info h0)
      (fun _ _ hc hsn hr h0 => DInv_congr hc hsn hr h0) h
  | lottieTimeoutStep c st => exact DInv_congr rfl rfl rfl h
  | stopStep st => exact DInv_congr rfl rfl rfl h
  | startStep doc st => exact start_DInv doc st h.2

theorem rtg_DInv {st st' : DState} (hs : Relation.ReflTransGen DStep st st')
    (h : DInv st) : DInv st' := by
  induction hs with
  | refl => exact h
  | tail h1 h2 ih => exact step_DInv h2 ih

/-- Once a node identity is in the seen-set with `k` reports, every later event
keeps it in the seen-set with exactly `k` reports. -/
theorem step_seen_count {st st' : DState} (hs : DStep st st') {i k : Nat}
    (h : i ∈ st.seen ∧ countId i st.reported = k) :
    i ∈ st'.seen ∧ countId i st'.reported = k := by
  have hreg : ∀ (info : DReport) (st0 : DState),
      (i ∈ st0.seen ∧ countId i st0.reported = k) →
      (i ∈ (registerSVG info st0).seen ∧ countId i (registerSVG info st0).reported = k) :=
    fun info st0 h0 => ⟨reg_seen_mono info h0.1, by rw [reg_count_pres info h0.1]; exact h0.2⟩
  have hsame2 : ∀ st0 st1 : DState, st1.seen = st0.seen → st1.reported = st0.reported →
      (i ∈ st0.seen ∧ countId i st0.reported = k) →
      (i ∈ st1.seen ∧ countId i st1.reported = k) := by
    intro st0 st1 e1 e2 h0
    rw [e1, e2]
    exact h0
  cases hs with
  | checkStep n st =>
    exact check_pres n st (fun info st0 _ _ h0 => hreg info st0 h0)
      (fun st0 st1 _ e1 e2 h0 => hsame2 st0 st1 e1 e2 h0) h
  | lottieStep c v st hv =>
    exact lottie_pres c v st hv (fun info st0 _ _ h0 => hreg info st0 h0)
      (fun st0 st1 _ e1 e2 h0 => hsame2 st0 st1 e1 e2 h0) h
  | lottieTimeoutStep c st => exact h
  | stopStep st => exact h
  | startStep doc st => exact start_pres doc st hreg hsame2 h

theorem rtg_seen_count {st st' : DState} (hs : Relation.ReflTransGen DStep st st')
    {i k : Nat} (h : i ∈ st.seen ∧ countId i st.reported = k) :
    i ∈ st'.seen ∧ countId i st'.reported = k := by
  induction hs with
  | refl => exact h
  | tail h1 h2 ih => exact step_seen_count h2 ih

/-! ### Tree membership and detection completeness -/

theorem lightElems_def (n : DNode) : n.lightElems = n :: forestElems n.kids := by
  cases n
  rfl

theorem forestElems_cons (n : DNode) (ns : List DNode) :
    forestElems (n :: ns) = n.lightElems ++ forestElems ns := rfl

theorem hostsFrom_def (n : DNode) :
    n.hostsFrom =
      (if n.hasShadow then n :: forestHosts n.shadowKids else []) ++ forestHosts n.kids := by
  cases n
  rfl

theorem forestHosts_cons (n : DNode) (ns : List DNode) :
    forestHosts (n :: ns) = n.hostsFrom ++ forestHosts ns := rfl

theorem self_mem_lightElems (n : DNode) : n ∈ n.lightElems := by
  rw [lightElems_def]
  exact List.mem_cons_self n _

theorem lightElems_sub {m : DNode} {ns : List DNode} (hm : m ∈ ns) :
    ∀ {v : DNode}, v ∈ m.lightElems → v ∈ forestElems ns := by
  intro v hv
  induction ns with
  | nil => cases hm
  | cons a tl ih =>
    rw [forestElems_cons]
    rcases List.mem_cons.mp hm with h1 | h1
    · exact List.mem_append_left _ (h1 ▸ hv)
    · exact List.mem_append_right _ (ih h1)

theorem hostsFrom_sub {m : DNode} {ns : List DNode} (hm : m ∈ ns) :
    ∀ {v : DNode}, v ∈ m.hostsFrom → v ∈ forestHosts ns := by
  intro v hv
  induction ns with
  | nil => cases hm
  | cons a tl ih =>
    rw [forestHosts_cons]
    rcases List.mem_cons.mp hm with h1 | h1
    · exact List.mem_append_left _ (h1 ▸ hv)
    · exact List.mem_append_right _ (ih h1)

theorem kid_lightElems {v m n : DNode} (hm : m ∈ n.kids) (hv : v ∈ m.lightElems) :
    v ∈ n.lightElems := by
  rw [lightElems_def]
  exact List.mem_cons_of_mem _ (lightElems_sub hm hv)

theorem kid_hostsFrom {h m n : DNode} (hm : m ∈ n.kids) (hh : h ∈ m.hostsFrom) :
    h ∈ n.hostsFrom := by
  rw [hostsFrom_def]
  exact List.mem_append_right _ (hostsFrom_sub hm hh)

theorem shadow_self_host {n : DNode} (hs : n.hasShadow = true) : n ∈ n.hostsFrom := by
  simp [hostsFrom_def, hs]

theorem shadow_hostsFrom {h m n : DNode} (hs : n.hasShadow = true)
    (hm : m ∈ n.shadowKids) (hh : h ∈ m.hostsFrom) : h ∈ n.hostsFrom := by
  rw [hostsFrom_def]
  simp only [hs, if_true]
  exact List.mem_append_left _ (List.mem_cons_of_mem _ (hostsFrom_sub hm hh))

/-- Every node of a tree is either a light element of the root or a light
element of the shadow tree of some reachable shadow host. -/
theorem cover {v n : DNode} (h : InTree v n) :
    v ∈ n.lightElems ∨ ∃ hh, hh ∈ n.hostsFrom ∧ v ∈ forestElems hh.shadowKids := by
  induction h with
  | refl => exact Or.inl (self_mem_lightElems _)
  | viaKid hm hin ih =>
    rcases ih with h1 | ⟨hh, h2, h3⟩
    · exact Or.inl (kid_lightElems hm h1)
    · exact Or.inr ⟨hh, kid_hostsFrom hm h2, h3⟩
  | viaShadow hs hm hin ih =>
    rcases ih with h1 | ⟨hh, h2, h3⟩
    · exact Or.inr ⟨_, shadow_self_host hs, lightElems_sub hm h1⟩
    · exact Or.inr ⟨hh, shadow_hostsFrom hs hm h2, h3⟩

/-- Completeness of `querySelectorAllDeep`: it finds every matching node at any
shadow depth. -/
theorem mem_qsad {v : DNode} {doc : List DNode} {sel : DNode → Bool}
    (hin : InDoc v doc) (hsel : sel v = true) :
    v ∈ querySelectorAllDeep sel doc := by
  obtain ⟨r, hr, htree⟩ := hin
  unfold querySelectorAllDeep
  rcases cover htree with h1 | ⟨hh, h2, h3⟩
  · exact List.mem_append_left _ (List.mem_filter.mpr ⟨lightElems_sub hr h1, hsel⟩)
  · refine List.mem_append_right _ ?_
    exact List.mem_flatMap.mpr ⟨hh, hostsFrom_sub hr h2, List.mem_filter.mpr ⟨h3, hsel⟩⟩

theorem foldl_reg_covers (infos : List DReport) (st : DState) :
    ∀ info ∈ infos, info.elemId ∈ (infos.foldl (fun s i => registerSVG i s) st).seen := by
  induction infos generalizing st with
  | nil => intro info h; cases h
  | cons a tl ih =>
    intro info h
    rcases List.mem_cons.mp h with h1 | h1
    · subst h1
      exact foldl_preserve (fun s => info.elemId ∈ s.seen) _ tl
        (fun st' b _ hb => reg_seen_mono b hb) _ (reg_self_seen info st)
    · exact ih (registerSVG a st) info h1

/-- Every inline svg present in the document when `start` runs ends up in the
seen-set (hence reported, by the invariant). -/
theorem start_seen_covers {v : DNode} {doc : List DNode} (st : DState)
    (hin : InDoc v doc) (htag : v.tag = "svg") : v.id ∈ (start doc st).seen := by
  unfold start
  have hsel : selSvg v = true := by simp [selSvg, htag]
  have hmem : DReport.mk "inline" v.id v.tag
      ∈ (detectExisting doc { st with callbackSet := true }).1 := by
    unfold detectExisting
    exact List.mem_append_left _ (List.mem_append_left _ (List.mem_append_left _
      (List.mem_append_left _ (List.mem_map.mpr ⟨v, mem_qsad hin hsel, rfl⟩))))
  have h2 := foldl_reg_covers (detectExisting doc { st with callbackSet := true }).1
    (detectExisting doc { st with callbackSet := true }).2 _ hmem
  refine foldl_preserve (fun s => v.id ∈ s.seen) _ _ (fun st' a _ hb => ?_) _ ?_
  · obtain ⟨e1, _, _⟩ := observeShadowRoot_fields a.id st'
    rw [e1]
    exact hb
  · exact h2

/-- C1 (amended): every inline svg present in the document at `start` (at any
shadow depth) is reported exactly once, and stays reported exactly once for the
rest of the session whatever events follow; every node identity is reported at
most once (the report log has no duplicates).  The claim's further guarantee
for svgs inserted later fails (`C1_counterexample`). -/
theorem C1_theorem (doc : List DNode) (v : DNode) (st' : DState)
    (hin : InDoc v doc) (htag : v.tag = "svg")
    (hrun : Relation.ReflTransGen DStep (start doc dInit) st') :
    countId v.id st'.reported = 1 ∧
      (st'.reported.map (fun r => r.elemId)).Nodup := by
  have hbase : DInv (start doc dInit) :=
    start_DInv doc dInit (fun i => ⟨by simp [countId, dInit], by simp [countId, dInit]⟩)
  have hinv' := rtg_DInv hrun hbase
  have hseen0 : v.id ∈ (start doc dInit).seen := start_seen_covers dInit hin htag
  have hcount0 : countId v.id (start doc dInit).reported = 1 := (hbase.2 v.id).2.mp hseen0
  have h2 := rtg_seen_count hrun ⟨hseen0, hcount0⟩
  refine ⟨h2.2, ?_⟩
  rw [List.nodup_iff_count_le_one]
  intro a
  exact (hinv'.2 a).1

/-- Witness for C1 (amended): one svg present at start is reported exactly
once. -/
theorem C1_witness :
    InDoc svgNode9 [svgNode9] ∧ svgNode9.tag = "svg" ∧
      countId 9 (start [svgNode9] dInit).reported = 1 ∧
      ((start [svgNode9] dInit).reported.map (fun r => r.elemId)).Nodup := by
  have hin : InDoc svgNode9 [svgNode9] := ⟨svgNode9, by simp, InTree.refl svgNode9⟩
  have h := C1_theorem [svgNode9] svgNode9 (start [svgNode9] dInit) hin rfl
    Relation.ReflTransGen.refl
  exact ⟨hin, rfl, h.1, h.2⟩

/-- C8 (amended): `stop()` retains the seen-set, so after `stop` followed by a
new `start` on the same detector, a node already in the seen-set stays there
and its number of reports is unchanged — it is NOT reported again.  A clean
slate requires constructing a new detector. -/
theorem C8_theorem (st : DState) (doc : List DNode) (i : Nat) (h : i ∈ st.seen) :
    (stop st).seen = st.seen ∧ i ∈ (start doc (stop st)).seen ∧
      countId i (start doc (stop st)).reported = countId i st.reported := by
  have h1 : i ∈ (stop st).seen ∧ countId i (stop st).reported = countId i st.reported :=
    ⟨h, rfl⟩
  have h2 := start_pres
    (P := fun s => i ∈ s.seen ∧ countId i s.reported = countId i st.reported)
    doc (stop st)
    (fun info st0 h0 => ⟨reg_seen_mono info h0.1, by rw [reg_count_pres info h0.1]; exact h0.2⟩)
    (fun st0 st1 e1 e2 h0 => by dsimp only; rw [e1, e2]; exact h0)
    h1
  exact ⟨rfl, h2.1, h2.2⟩

/-- Witness for C8 (amended) on the concrete restart run. -/
theorem C8_witness :
    9 ∈ (start [svgNode9] dInit).seen ∧
      ((stop (start [svgNode9] dInit)).seen = (start [svgNode9] dInit).seen ∧
        9 ∈ (start [svgNode9] (stop (start [svgNode9] dInit))).seen ∧
        countId 9 (start [svgNode9] (stop (start [svgNode9] dInit))).reported
          = countId 9 (start [svgNode9] dInit).reported) :=
  ⟨by decide, C8_theorem (start [svgNode9] dInit) [svgNode9] 9 (by decide)⟩

/-- The detector state right after construction and callback assignment. -/
def dReady : DState := { dInit with callbackSet := true }

/-- C10: the continuous mutation handler (`checkNodeForSVG`, also run by every
shadow watcher) only ever adds reports whose type is `inline` and whose element
is an `svg`-tagged node, and a resolving animation watch only adds a `lottie`
report for an `svg`-tagged node; hence neither ever invokes `onDetected` for an
`<img>`, `<object>` or `<embed>` element — those graphics are reported only by
the initial detection pass. -/
theorem C10_theorem (st : DState) (n : DNode) (c : Nat) (v : DNode) :
    (∀ r ∈ (checkNodeForSVG n st).reported,
        r ∈ st.reported ∨ (r.dtype = "inline" ∧ r.elemTag = "svg")) ∧
      (v.tag = "svg" →
        ∀ r ∈ (lottieResolve c v st).reported,
          r ∈ st.reported ∨ (r.dtype = "lottie" ∧ r.elemTag = "svg")) := by
  constructor
  · refine check_pres
      (P := fun s => ∀ r ∈ s.reported,
        r ∈ st.reported ∨ (r.dtype = "inline" ∧ r.elemTag = "svg")) n st
      ?_ ?_ (fun r hr => Or.inl hr)
    · intro info st0 hd ht h0 r hr
      rcases mem_reported_reg hr with h1 | h1
      · exact h0 r h1
      · subst h1
        exact Or.inr ⟨hd, ht⟩
    · intro st0 st1 _ _ er h0
      rw [er]
      exact h0
  · intro hv
    refine lottie_pres
      (P := fun s => ∀ r ∈ s.reported,
        r ∈ st.reported ∨ (r.dtype = "lottie" ∧ r.elemTag = "svg")) c v st hv
      ?_ ?_ (fun r hr => Or.inl hr)
    · intro info st0 hd ht h0 r hr
      rcases mem_reported_reg hr with h1 | h1
      · exact h0 r h1
      · subst h1
        exact Or.inr ⟨hd, ht⟩
    · intro st0 st1 _ _ er h0
      rw [er]
      exact h0

/-- Witness for C10 at a concrete svg insertion. -/
theorem C10_witness :
    (⟨"inline", 9, "svg"⟩ : DReport) ∈ (checkNodeForSVG svgNode9 dReady).reported ∧
      ((⟨"inline", 9, "svg"⟩ : DReport) ∈ dReady.reported ∨
        ((⟨"inline", 9, "svg"⟩ : DReport).dtype = "inline" ∧
          (⟨"inline", 9, "svg"⟩ : DReport).elemTag = "svg")) :=
  ⟨by decide, (C10_theorem dReady svgNode9 0 svgNode9).1 ⟨"inline", 9, "svg"⟩ (by decide)⟩

/-! ## Enhancer lemmas -/

/-- The per-shape effect of one `addOutlines` pass. -/
def outlinePhase (s : Settings) (sh : Shape) : Shape :=
  if outlineSelected sh then
    applyOutline s (if !(isTruthy sh.dsOriginalStroke) then captureOutline sh else sh)
  else sh

/-- The shapes captured (and pushed onto the modified list) by one
`addOutlines` pass. -/
def capSel (sh : Shape) : Bool :=
  outlineSelected sh && !(isTruthy sh.dsOriginalStroke)

def capturedIds (shs : List Shape) : List Nat :=
  (shs.filter capSel).map Shape.id

theorem addOutlinesGo_eq (s : Settings) (shs : List Shape) (mods : List Nat) :
    addOutlinesGo s shs mods = (shs.map (outlinePhase s), mods ++ capturedIds shs) := by
  induction shs generalizing mods with
  | nil => simp [addOutlinesGo, capturedIds]
  | cons sh rest ih =>
    by_cases hsel : outlineSelected sh = true
    · by_cases hcap : isTruthy sh.dsOriginalStroke = true
      · simp [addOutlinesGo, hsel, hcap, ih, outlinePhase, capturedIds, capSel]
      · simp only [Bool.not_eq_true] at hcap
        simp [addOutlinesGo, hsel, hcap, ih, outlinePhase, capturedIds, capSel]
    · simp only [Bool.not_eq_true] at hsel
      simp [addOutlinesGo, hsel, ih, outlinePhase, capturedIds, capSel]

theorem restoreOutlineShape_id (sh : Shape) : (restoreOutlineShape sh).id = sh.id := rfl

theorem removeOutlines_nil (shs : List Shape) : removeOutlines shs [] = shs := rfl

/-- With pairwise-distinct entries, the `removeOutlines` fold over the modified
list is a pointwise map over the shapes. -/
theorem removeOutlines_eq_map (shs : List Shape) (mods : List Nat) (hnd : mods.Nodup) :
    removeOutlines shs mods
      = shs.map (fun sh => if sh.id ∈ mods then restoreOutlineShape sh else sh) := by
  induction mods generalizing shs with
  | nil =>
    simp [removeOutlines]
  | cons i tl ih =>
    have hni : i ∉ tl := (List.nodup_cons.mp hnd).1
    have htl : tl.Nodup := (List.nodup_cons.mp hnd).2
    have h1 : removeOutlines shs (i :: tl)
        = removeOutlines (updateById i restoreOutlineShape shs) tl := rfl
    rw [h1, ih _ htl]
    unfold updateById
    rw [List.map_map]
    refine List.map_congr_left (fun sh _ => ?_)
    by_cases hid : (sh.id == i) = true
    · have hid' : sh.id = i := by simpa using hid
      simp only [Function.comp_apply, hid, if_true]
      rw [restoreOutlineShape_id, hid', if_neg hni, if_pos (List.mem_cons_self i tl)]
    · have hid' : ¬ sh.id = i := by simpa using hid
      simp only [Function.comp_apply, hid, Bool.false_eq_true, if_false]
      by_cases hmem : sh.id ∈ tl
      · rw [if_pos hmem, if_pos (List.mem_cons_of_mem i hmem)]
      · rw [if_neg hmem, if_neg (by simp [hid', hmem])]

/-- The per-shape effect of the whole `enhanceInlineSVG` shape pipeline. -/
def ePhase (s : Settings) (sh : Shape) : Shape :=
  let a := if s.outlineEnabled then outlinePhase s sh else sh
  let b := if s.highlightEnabled then hl2 s (hl1 s a) else hlRemove1 a
  if s.focusIndicators then focusAdd1 b else focusRemove1 b

/-- `enhanceInlineCore` on a root with no existing record, as a pointwise map
plus root updates. -/
theorem enhanceInlineCore_fresh (s : Settings) (sv : SvgRoot) :
    enhanceInlineCore s sv none
      = ({ sv with
            shapes := sv.shapes.map (ePhase s)
            filterStyle := if s.contrastEnabled then
                combineFilter sv.filterStyle (contrastFilterFor s.contrastLevel)
              else sv.filterStyle
            classes := addClass "shiny-enhanced" sv.classes },
          { originalFilter := sv.filterStyle
            modifiedShapes := if s.outlineEnabled then capturedIds sv.shapes else [] }) := by
  unfold enhanceInlineCore
  cases ho : s.outlineEnabled <;> cases hh : s.highlightEnabled <;> cases hf : s.focusIndicators <;>
    simp [addOutlinesGo_eq, removeOutlines_nil, addHighlighting, removeHighlighting,
      addFocusIndicators, removeFocusIndicators, List.map_map, ePhase, ho, hh, hf,
      Function.comp]

/-! ### Per-shape transparency lemmas -/

@[simp] theorem hl1_stroke (s : Settings) (sh : Shape) : (hl1 s sh).stroke = sh.stroke := by
  unfold hl1 highlightMark
  split_ifs <;> rfl

@[simp] theorem hl1_strokeWidth (s : Settings) (sh : Shape) : (hl1 s sh).strokeWidth = sh.strokeWidth := by
  unfold hl1 highlightMark
  split_ifs <;> rfl

@[simp] theorem hl1_paintOrderStyle (s : Settings) (sh : Shape) : (hl1 s sh).paintOrderStyle = sh.paintOrderStyle := by
  unfold hl1 highlightMark
  split_ifs <;> rfl

@[simp] theorem hl1_tabindexAttr (s : Settings) (sh : Shape) : (hl1 s sh).tabindexAttr = sh.tabindexAttr := by
  unfold hl1 highlightMark
  split_ifs <;> rfl

@[simp] theorem hl1_dsOriginalStroke (s : Settings) (sh : Shape) : (hl1 s sh).dsOriginalStroke = sh.dsOriginalStroke := by
  unfold hl1 highlightMark
  split_ifs <;> rfl

@[simp] theorem hl1_dsOriginalStrokeWidth (s : Settings) (sh : Shape) : (hl1 s sh).dsOriginalStrokeWidth = sh.dsOriginalStrokeWidth := by
  unfold hl1 highlightMark
  split_ifs <;> rfl

@[simp] theorem hl1_dsOriginalPaintOrder (s : Settings) (sh : Shape) : (hl1 s sh).dsOriginalPaintOrder = sh.dsOriginalPaintOrder := by
  unfold hl1 highlightMark
  split_ifs <;> rfl

@[simp] theorem hl1_dsAddedTabindex (s : Settings) (sh : Shape) : (hl1 s sh).dsAddedTabindex = sh.dsAddedTabindex := by
  unfold hl1 highlightMark
  split_ifs <;> rfl

@[simp] theorem hl1_id (s : Settings) (sh : Shape) : (hl1 s sh).id = sh.id := by
  unfold hl1 highlightMark
  split_ifs <;> rfl

@[simp] theorem hl2_stroke (s : Settings) (sh : Shape) : (hl2 s sh).stroke = sh.stroke := by
  unfold hl2 highlightMark
  split_ifs <;> rfl

@[simp] theorem hl2_strokeWidth (s : Settings) (sh : Shape) : (hl2 s sh).strokeWidth = sh.strokeWidth := by
  unfold hl2 highlightMark
  split_ifs <;> rfl

@[simp] theorem hl2_paintOrderStyle (s : Settings) (sh : Shape) : (hl2 s sh).paintOrderStyle = sh.paintOrderStyle := by
  unfold hl2 highlightMark
  split_ifs <;> rfl

@[simp] theorem hl2_tabindexAttr (s : Settings) (sh : Shape) : (hl2 s sh).tabindexAttr = sh.tabindexAttr := by
  unfold hl2 highlightMark
  split_ifs <;> rfl

@[simp] theorem hl2_dsOriginalStroke (s : Settings) (sh : Shape) : (hl2 s sh).dsOriginalStroke = sh.dsOriginalStroke := by
  unfold hl2 highlightMark
  split_ifs <;> rfl

@[simp] theorem hl2_dsOriginalStrokeWidth (s : Settings) (sh : Shape) : (hl2 s sh).dsOriginalStrokeWidth = sh.dsOriginalStrokeWidth := by
  unfold hl2 highlightMark
  split_ifs <;> rfl

@[simp] theorem hl2_dsOriginalPaintOrder (s : Settings) (sh : Shape) : (hl2 s sh).dsOriginalPaintOrder = sh.dsOriginalPaintOrder := by
  unfold hl2 highlightMark
  split_ifs <;> rfl

@[simp] theorem hl2_dsAddedTabindex (s : Settings) (sh : Shape) : (hl2 s sh).dsAddedTabindex = sh.dsAddedTabindex := by
  unfold hl2 highlightMark
  split_ifs <;> rfl

@[simp] theorem hl2_id (s : Settings) (sh : Shape) : (hl2 s sh).id = sh.id := by
  unfold hl2 highlightMark
  split_ifs <;> rfl

@[simp] theorem hlRemove1_stroke (sh : Shape) : (hlRemove1 sh).stroke = sh.stroke := by
  unfold hlRemove1
  split_ifs <;> rfl

@[simp] theorem hlRemove1_strokeWidth (sh : Shape) : (hlRemove1 sh).strokeWidth = sh.strokeWidth := by
  unfold hlRemove1
  split_ifs <;> rfl

@[simp] theorem hlRemove1_paintOrderStyle (sh : Shape) : (hlRemove1 sh).paintOrderStyle = sh.paintOrderStyle := by
  unfold hlRemove1
  split_ifs <;> rfl

@[simp] theorem hlRemove1_tabindexAttr (sh : Shape) : (hlRemove1 sh).tabindexAttr = sh.tabindexAttr := by
  unfold hlRemove1
  split_ifs <;> rfl

@[simp] theorem hlRemove1_dsOriginalStroke (sh : Shape) : (hlRemove1 sh).dsOriginalStroke = sh.dsOriginalStroke := by
  unfold hlRemove1
  split_ifs <;> rfl

@[simp] theorem hlRemove1_dsOriginalStrokeWidth (sh : Shape) : (hlRemove1 sh).dsOriginalStrokeWidth = sh.dsOriginalStrokeWidth := by
  unfold hlRemove1
  split_ifs <;> rfl

@[simp] theorem hlRemove1_dsOriginalPaintOrder (sh : Shape) : (hlRemove1 sh).dsOriginalPaintOrder = sh.dsOriginalPaintOrder := by
  unfold hlRemove1
  split_ifs <;> rfl

@[simp] theorem hlRemove1_dsAddedTabindex (sh : Shape) : (hlRemove1 sh).dsAddedTabindex = sh.dsAddedTabindex := by
  unfold hlRemove1
  split_ifs <;> rfl

@[simp] theorem hlRemove1_id (sh : Shape) : (hlRemove1 sh).id = sh.id := by
  unfold hlRemove1
  split_ifs <;> rfl

@[simp] theorem focusAdd1_stroke (sh : Shape) : (focusAdd1 sh).stroke = sh.stroke := by
  unfold focusAdd1
  dsimp only
  split_ifs <;> rfl

@[simp] theorem focusAdd1_strokeWidth (sh : Shape) : (focusAdd1 sh).strokeWidth = sh.strokeWidth := by
  unfold focusAdd1
  dsimp only
  split_ifs <;> rfl

@[simp] theorem focusAdd1_paintOrderStyle (sh : Shape) : (focusAdd1 sh).paintOrderStyle = sh.paintOrderStyle := by
  unfold focusAdd1
  dsimp only
  split_ifs <;> rfl

@[simp] theorem focusAdd1_dsOriginalStroke (sh : Shape) : (focusAdd1 sh).dsOriginalStroke = sh.dsOriginalStroke := by
  unfold focusAdd1
  dsimp only
  split_ifs <;> rfl

@[simp] theorem focusAdd1_dsOriginalStrokeWidth (sh : Shape) : (focusAdd1 sh).dsOriginalStrokeWidth = sh.dsOriginalStrokeWidth := by
  unfold focusAdd1
  dsimp only
  split_ifs <;> rfl

@[simp] theorem focusAdd1_dsOriginalPaintOrder (sh : Shape) : (focusAdd1 sh).dsOriginalPaintOrder = sh.dsOriginalPaintOrder := by
  unfold focusAdd1
  dsimp only
  split_ifs <;> rfl

@[simp] theorem focusAdd1_id (sh : Shape) : (focusAdd1 sh).id = sh.id := by
  unfold focusAdd1
  dsimp only
  split_ifs <;> rfl

@[simp] theorem focusRemove1_stroke (sh : Shape) : (focusRemove1 sh).stroke = sh.stroke := by
  unfold focusRemove1
  dsimp only
  split_ifs <;> rfl

@[simp] theorem focusRemove1_strokeWidth (sh : Shape) : (focusRemove1 sh).strokeWidth = sh.strokeWidth := by
  unfold focusRemove1
  dsimp only
  split_ifs <;> rfl

@[simp] theorem focusRemove1_paintOrderStyle (sh : Shape) : (focusRemove1 sh).paintOrderStyle = sh.paintOrderStyle := by
  unfold focusRemove1
  dsimp only
  split_ifs <;> rfl

@[simp] theorem focusRemove1_dsOriginalStroke (sh : Shape) : (focusRemove1 sh).dsOriginalStroke = sh.dsOriginalStroke := by
  unfold focusRemove1
  dsimp only
  split_ifs <;> rfl

@[simp] theorem focusRemove1_dsOriginalStrokeWidth (sh : Shape) : (focusRemove1 sh).dsOriginalStrokeWidth = sh.dsOriginalStrokeWidth := by
  unfold focusRemove1
  dsimp only
  split_ifs <;> rfl

@[simp] theorem focusRemove1_dsOriginalPaintOrder (sh : Shape) : (focusRemove1 sh).dsOriginalPaintOrder = sh.dsOriginalPaintOrder := by
  unfold focusRemove1
  dsimp only
  split_ifs <;> rfl

@[simp] theorem focusRemove1_id (sh : Shape) : (focusRemove1 sh).id = sh.id := by
  unfold focusRemove1
  dsimp only
  split_ifs <;> rfl

@[simp] theorem captureOutline_stroke (sh : Shape) : (captureOutline sh).stroke = sh.stroke := rfl

@[simp] theorem captureOutline_strokeWidth (sh : Shape) : (captureOutline sh).strokeWidth = sh.strokeWidth := rfl

@[simp] theorem captureOutline_tabindexAttr (sh : Shape) : (captureOutline sh).tabindexAttr = sh.tabindexAttr := rfl

@[simp] theorem captureOutline_dsAddedTabindex (sh : Shape) : (captureOutline sh).dsAddedTabindex = sh.dsAddedTabindex := rfl

@[simp] theorem captureOutline_id (sh : Shape) : (captureOutline sh).id = sh.id := rfl

@[simp] theorem captureOutline_classes (sh : Shape) : (captureOutline sh).classes = sh.classes := rfl

@[simp] theorem captureOutline_paintOrderStyle (sh : Shape) : (captureOutline sh).paintOrderStyle = sh.paintOrderStyle := rfl

@[simp] theorem captureOutline_fill (sh : Shape) : (captureOutline sh).fill = sh.fill := rfl

@[simp] theorem applyOutline_tabindexAttr (s : Settings) (sh : Shape) : (applyOutline s sh).tabindexAttr = sh.tabindexAttr := by
  unfold applyOutline
  dsimp only
  split_ifs <;> rfl

@[simp] theorem applyOutline_dsAddedTabindex (s : Settings) (sh : Shape) : (applyOutline s sh).dsAddedTabindex = sh.dsAddedTabindex := by
  unfold applyOutline
  dsimp only
  split_ifs <;> rfl

@[simp] theorem applyOutline_dsOriginalStroke (s : Settings) (sh : Shape) : (applyOutline s sh).dsOriginalStroke = sh.dsOriginalStroke := by
  unfold applyOutline
  dsimp only
  split_ifs <;> rfl

@[simp] theorem applyOutline_dsOriginalStrokeWidth (s : Settings) (sh : Shape) : (applyOutline s sh).dsOriginalStrokeWidth = sh.dsOriginalStrokeWidth := by
  unfold applyOutline
  dsimp only
  split_ifs <;> rfl

@[simp] theorem applyOutline_dsOriginalPaintOrder (s : Settings) (sh : Shape) : (applyOutline s sh).dsOriginalPaintOrder = sh.dsOriginalPaintOrder := by
  unfold applyOutline
  dsimp only
  split_ifs <;> rfl

@[simp] theorem applyOutline_id (s : Settings) (sh : Shape) : (applyOutline s sh).id = sh.id := by
  unfold applyOutline
  dsimp only
  split_ifs <;> rfl

@[simp] theorem applyOutline_fill (s : Settings) (sh : Shape) : (applyOutline s sh).fill = sh.fill := by
  unfold applyOutline
  dsimp only
  split_ifs <;> rfl

@[simp] theorem restoreOutlineShape_tabindexAttr (sh : Shape) : (restoreOutlineShape sh).tabindexAttr = sh.tabindexAttr := rfl

@[simp] theorem restoreOutlineShape_dsAddedTabindex (sh : Shape) : (restoreOutlineShape sh).dsAddedTabindex = sh.dsAddedTabindex := rfl

@[simp] theorem restoreOutlineShape_dsOriginalStroke (sh : Shape) : (restoreOutlineShape sh).dsOriginalStroke = sh.dsOriginalStroke := rfl

@[simp] theorem restoreOutlineShape_dsOriginalStrokeWidth (sh : Shape) : (restoreOutlineShape sh).dsOriginalStrokeWidth = sh.dsOriginalStrokeWidth := rfl

@[simp] theorem restoreOutlineShape_dsOriginalPaintOrder (sh : Shape) : (restoreOutlineShape sh).dsOriginalPaintOrder = sh.dsOriginalPaintOrder := rfl


attribute [simp] restoreOutlineShape_id

/-! ### Class membership lemmas -/

theorem bcontains_iff_mem {α : Type} [BEq α] [LawfulBEq α] (l : List α) (a : α) :
    l.contains a = true ↔ a ∈ l := by
  induction l with
  | nil => simp
  | cons b tl ih =>
    rw [List.contains_cons]
    simp only [Bool.or_eq_true, beq_iff_eq, List.mem_cons]
    rw [ih]

theorem mem_addClass (x c : String) (cs : List String) :
    x ∈ addClass c cs ↔ x ∈ cs ∨ x = c := by
  unfold addClass
  split
  · rename_i h
    have hc : c ∈ cs := (bcontains_iff_mem cs c).mp h
    constructor
    · exact Or.inl
    · rintro (hx | rfl)
      · exact hx
      · exact hc
  · simp [List.mem_append]

theorem mem_removeClass (x c : String) (cs : List String) (hx : ¬ x = c) :
    x ∈ removeClass c cs ↔ x ∈ cs := by
  unfold removeClass
  rw [List.mem_filter]
  simp [hx]

theorem not_mem_removeClass (c : String) (cs : List String) : c ∉ removeClass c cs := by
  unfold removeClass
  intro h
  have := (List.mem_filter.mp h).2
  simp at this

theorem hl1_mem_classes (s : Settings) (sh : Shape) (x : String)
    (hx : ¬ x = "shiny-highlightable") :
    x ∈ (hl1 s sh).classes ↔ x ∈ sh.classes := by
  unfold hl1 highlightMark
  split_ifs <;> simp [mem_addClass, hx]

theorem hl2_mem_classes (s : Settings) (sh : Shape) (x : String)
    (hx : ¬ x = "shiny-highlightable") :
    x ∈ (hl2 s sh).classes ↔ x ∈ sh.classes := by
  unfold hl2 highlightMark
  split_ifs <;> simp [mem_addClass, hx]

theorem hlRemove1_mem_classes (sh : Shape) (x : String)
    (hx : ¬ x = "shiny-highlightable") :
    x ∈ (hlRemove1 sh).classes ↔ x ∈ sh.classes := by
  unfold hlRemove1
  split_ifs <;> simp [mem_removeClass _ _ _ hx]

theorem focusAdd1_mem_classes (sh : Shape) (x : String) (hx : ¬ x = "shiny-focusable") :
    x ∈ (focusAdd1 sh).classes ↔ x ∈ sh.classes := by
  unfold focusAdd1
  dsimp only
  split_ifs <;> simp [mem_addClass, hx]

theorem focusRemove1_mem_classes (sh : Shape) (x : String) (hx : ¬ x = "shiny-focusable") :
    x ∈ (focusRemove1 sh).classes ↔ x ∈ sh.classes := by
  unfold focusRemove1
  dsimp only
  split_ifs <;> simp [mem_removeClass _ _ _ hx]

theorem applyOutline_mem_classes (s : Settings) (sh : Shape) (x : String)
    (hx : ¬ x = "shiny-outlined") :
    x ∈ (applyOutline s sh).classes ↔ x ∈ sh.classes := by
  unfold applyOutline
  dsimp only
  split_ifs <;> simp [mem_addClass, hx]

theorem restoreOutlineShape_mem_classes (sh : Shape) (x : String)
    (hx : ¬ x = "shiny-outlined") :
    x ∈ (restoreOutlineShape sh).classes ↔ x ∈ sh.classes :=
  mem_removeClass _ _ _ hx

theorem not_mem_hlRemove1 (sh : Shape) :
    "shiny-highlightable" ∉ (hlRemove1 sh).classes := by
  unfold hlRemove1
  split_ifs with h
  · exact not_mem_removeClass _ _
  · intro hm
    exact absurd ((bcontains_iff_mem _ _).mpr hm) (by simpa using h)

theorem not_mem_focusRemove1 (sh : Shape) :
    "shiny-focusable" ∉ (focusRemove1 sh).classes := by
  unfold focusRemove1
  dsimp only
  split_ifs with h h2
  · exact not_mem_removeClass _ _
  · exact not_mem_removeClass _ _
  · intro hm
    exact absurd ((bcontains_iff_mem _ _).mpr hm) (by simpa using h)

theorem not_mem_restoreOutlined (sh : Shape) :
    "shiny-outlined" ∉ (restoreOutlineShape sh).classes :=
  not_mem_removeClass _ _

/-! ### Focus layer behavior -/

theorem focusRemove1_tabindex_of_skip (sh : Shape)
    (hd : isTruthy sh.dsAddedTabindex = false) :
    (focusRemove1 sh).tabindexAttr = sh.tabindexAttr := by
  unfold focusRemove1
  dsimp only
  split_ifs <;> simp_all

theorem focusRemove1_tabindex_added (sh : Shape)
    (hcl : "shiny-focusable" ∈ sh.classes) (hd : isTruthy sh.dsAddedTabindex = true) :
    (focusRemove1 sh).tabindexAttr = none := by
  unfold focusRemove1
  dsimp only
  have hc : sh.classes.contains "shiny-focusable" = true := (bcontains_iff_mem _ _).mpr hcl
  split_ifs <;> simp_all

theorem focusAdd1_cases (sh : Shape) :
    ((focusAdd1 sh).tabindexAttr = sh.tabindexAttr ∧
      (focusAdd1 sh).dsAddedTabindex = sh.dsAddedTabindex) ∨
    (sh.tabindexAttr = none ∧ (focusAdd1 sh).tabindexAttr = some "0" ∧
      (focusAdd1 sh).dsAddedTabindex = some "true" ∧
      "shiny-focusable" ∈ (focusAdd1 sh).classes) := by
  unfold focusAdd1
  dsimp only
  split_ifs with h1 h2
  · refine Or.inr ⟨?_, rfl, rfl, ?_⟩
    · have h3 := (Bool.and_eq_true _ _).mp h2
      exact Option.isNone_iff_eq_none.mp h3.1
    · simp [mem_addClass]
  · exact Or.inl ⟨rfl, rfl⟩
  · exact Or.inl ⟨rfl, rfl⟩

/-- The whole per-shape enhancement pipeline preserves node identity. -/
theorem ePhase_id (s : Settings) (sh : Shape) : (ePhase s sh).id = sh.id := by
  unfold ePhase outlinePhase
  dsimp only
  split_ifs <;> simp

theorem mem_capturedIds {sh : Shape} {shs : List Shape}
    (hids : (shs.map Shape.id).Nodup) (hm : sh ∈ shs) :
    sh.id ∈ capturedIds shs ↔ capSel sh = true := by
  unfold capturedIds
  constructor
  · intro h
    obtain ⟨sh', hsh', heq⟩ := List.mem_map.mp h
    have h2 := List.mem_filter.mp hsh'
    have h3 : sh' = sh := List.inj_on_of_nodup_map hids h2.1 hm heq
    rw [← h3]
    exact h2.2
  · intro h
    exact List.mem_map.mpr ⟨sh, List.mem_filter.mpr ⟨hm, h⟩, rfl⟩

/-! ### The roundtrip per-shape function -/

@[simp] theorem captureOutline_dsOriginalStroke (sh : Shape) :
    (captureOutline sh).dsOriginalStroke = some (sh.stroke.getD "") := rfl

@[simp] theorem captureOutline_dsOriginalStrokeWidth (sh : Shape) :
    (captureOutline sh).dsOriginalStrokeWidth = some (sh.strokeWidth.getD "") := rfl

@[simp] theorem captureOutline_dsOriginalPaintOrder (sh : Shape) :
    (captureOutline sh).dsOriginalPaintOrder = some sh.paintOrderStyle := rfl

@[simp] theorem restoreOutlineShape_stroke (sh : Shape) :
    (restoreOutlineShape sh).stroke
      = if isTruthy sh.dsOriginalStroke then sh.dsOriginalStroke else none := rfl

@[simp] theorem restoreOutlineShape_strokeWidth (sh : Shape) :
    (restoreOutlineShape sh).strokeWidth
      = if isTruthy sh.dsOriginalStrokeWidth then sh.dsOriginalStrokeWidth else none := rfl

@[simp] theorem restoreOutlineShape_paintOrderStyle (sh : Shape) :
    (restoreOutlineShape sh).paintOrderStyle
      = sh.dsOriginalPaintOrder.getD sh.paintOrderStyle := rfl

theorem focusRemove1_ds_of_skip (sh : Shape)
    (hd : isTruthy sh.dsAddedTabindex = false) :
    (focusRemove1 sh).dsAddedTabindex = sh.dsAddedTabindex := by
  unfold focusRemove1
  dsimp only
  split_ifs <;> simp_all

/-- The per-shape effect of `restore` after one fresh enhancement: revert the
outline (for shapes that were captured), strip highlight markers, strip focus
markers and synthetic tab indices. -/
def rPhase (s : Settings) (sh : Shape) : Shape :=
  focusRemove1 (hlRemove1
    (if s.outlineEnabled && capSel sh then restoreOutlineShape (ePhase s sh)
     else ePhase s sh))

theorem capturedIds_nodup {shs : List Shape} (hids : (shs.map Shape.id).Nodup) :
    (capturedIds shs).Nodup :=
  List.Nodup.sublist (List.Sublist.map Shape.id (List.filter_sublist shs)) hids

/-- The shape list produced by `restore` after one fresh enhancement, as a
pointwise map. -/
theorem restore_shapes_map (s : Settings) (shs : List Shape)
    (hids : (shs.map Shape.id).Nodup) :
    removeFocusIndicators (removeHighlighting (removeOutlines (shs.map (ePhase s))
        (if s.outlineEnabled = true then capturedIds shs else [])))
      = shs.map (rPhase s) := by
  unfold rPhase
  cases ho : s.outlineEnabled
  · simp only [Bool.false_eq_true, if_false, removeOutlines_nil]
    unfold removeHighlighting removeFocusIndicators
    rw [List.map_map, List.map_map]
    refine List.map_congr_left (fun sh hm => ?_)
    simp [ho]
  · simp only [if_true]
    rw [removeOutlines_eq_map _ _ (capturedIds_nodup hids)]
    unfold removeHighlighting removeFocusIndicators
    rw [List.map_map, List.map_map, List.map_map]
    refine List.map_congr_left (fun sh hm => ?_)
    simp only [Function.comp_apply, ho, Bool.true_and]
    rw [ePhase_id]
    by_cases hc : capSel sh = true
    · rw [if_pos ((mem_capturedIds hids hm).mpr hc), if_pos hc]
    · rw [if_neg (fun hmem => hc ((mem_capturedIds hids hm).mp hmem)),
        if_neg (by simpa using hc)]

theorem rPhase_stroke (s : Settings) (sh : Shape) (hd1 : sh.dsOriginalStroke = none)
    (hs1 : ¬ sh.stroke = some "") : (rPhase s sh).stroke = sh.stroke := by
  unfold rPhase
  rw [focusRemove1_stroke, hlRemove1_stroke]
  by_cases hbo : (s.outlineEnabled && capSel sh) = true
  · rw [if_pos hbo]
    obtain ⟨ho, hcs⟩ := (Bool.and_eq_true _ _).mp hbo
    have hds : (ePhase s sh).dsOriginalStroke = some (sh.stroke.getD "") := by
      unfold ePhase outlinePhase
      have hsel := (Eq.mp (Bool.and_eq_true _ _) hcs).1
      cases hh : s.highlightEnabled <;> cases hf : s.focusIndicators <;>
        simp [ho, hh, hf, hsel, hd1, isTruthy]
    rcases hst : sh.stroke with _ | v
    · rw [hst] at hds
      simp [hds, isTruthy]
    · have hv : ¬ v = "" := fun he => hs1 (by rw [hst, he])
      rw [hst] at hds
      simp [hds, isTruthy, hv, hst]
  · rw [if_neg hbo]
    unfold ePhase outlinePhase
    cases ho : s.outlineEnabled <;> cases hh : s.highlightEnabled <;>
      cases hf : s.focusIndicators <;>
      simp_all [capSel, hd1, isTruthy]

theorem rPhase_strokeWidth (s : Settings) (sh : Shape)
    (hd1 : sh.dsOriginalStroke = none) (hd2 : sh.dsOriginalStrokeWidth = none)
    (hs2 : ¬ sh.strokeWidth = some "") : (rPhase s sh).strokeWidth = sh.strokeWidth := by
  unfold rPhase
  rw [focusRemove1_strokeWidth, hlRemove1_strokeWidth]
  by_cases hbo : (s.outlineEnabled && capSel sh) = true
  · rw [if_pos hbo]
    obtain ⟨ho, hcs⟩ := (Bool.and_eq_true _ _).mp hbo
    have hds : (ePhase s sh).dsOriginalStrokeWidth = some (sh.strokeWidth.getD "") := by
      unfold ePhase outlinePhase
      have hsel := (Eq.mp (Bool.and_eq_true _ _) hcs).1
      cases hh : s.highlightEnabled <;> cases hf : s.focusIndicators <;>
        simp [ho, hh, hf, hsel, hd1, isTruthy]
    rcases hst : sh.strokeWidth with _ | v
    · rw [hst] at hds
      simp [hds, isTruthy]
    · have hv : ¬ v = "" := fun he => hs2 (by rw [hst, he])
      rw [hst] at hds
      simp [hds, isTruthy, hv, hst]
  · rw [if_neg hbo]
    unfold ePhase outlinePhase
    cases ho : s.outlineEnabled <;> cases hh : s.highlightEnabled <;>
      cases hf : s.focusIndicators <;>
      simp_all [capSel, hd1, isTruthy]

theorem rPhase_paintOrder (s : Settings) (sh : Shape)
    (hd1 : sh.dsOriginalStroke = none) (hd3 : sh.dsOriginalPaintOrder = none) :
    (rPhase s sh).paintOrderStyle = sh.paintOrderStyle := by
  unfold rPhase
  rw [focusRemove1_paintOrderStyle, hlRemove1_paintOrderStyle]
  by_cases hbo : (s.outlineEnabled && capSel sh) = true
  · rw [if_pos hbo]
    obtain ⟨ho, hcs⟩ := (Bool.and_eq_true _ _).mp hbo
    have hds : (ePhase s sh).dsOriginalPaintOrder = some sh.paintOrderStyle := by
      unfold ePhase outlinePhase
      have hsel := (Eq.mp (Bool.and_eq_true _ _) hcs).1
      cases hh : s.highlightEnabled <;> cases hf : s.focusIndicators <;>
        simp [ho, hh, hf, hsel, hd1, isTruthy]
    simp [hds]
  · rw [if_neg hbo]
    unfold ePhase outlinePhase
    cases ho : s.outlineEnabled <;> cases hh : s.highlightEnabled <;>
      cases hf : s.focusIndicators <;>
      simp_all [capSel, hd1, isTruthy]

/-- The shape pipeline before the focus layer. -/
def preFocus (s : Settings) (sh : Shape) : Shape :=
  if s.highlightEnabled then
    hl2 s (hl1 s (if s.outlineEnabled then outlinePhase s sh else sh))
  else hlRemove1 (if s.outlineEnabled then outlinePhase s sh else sh)

theorem ePhase_eq (s : Settings) (sh : Shape) :
    ePhase s sh
      = if s.focusIndicators then focusAdd1 (preFocus s sh)
        else focusRemove1 (preFocus s sh) := rfl

theorem preFocus_tab (s : Settings) (sh : Shape) :
    (preFocus s sh).tabindexAttr = sh.tabindexAttr := by
  unfold preFocus outlinePhase
  split_ifs <;> simp

theorem preFocus_ds4 (s : Settings) (sh : Shape) :
    (preFocus s sh).dsAddedTabindex = sh.dsAddedTabindex := by
  unfold preFocus outlinePhase
  split_ifs <;> simp

theorem preFocus_mem_foc (s : Settings) (sh : Shape) :
    "shiny-focusable" ∈ (preFocus s sh).classes ↔ "shiny-focusable" ∈ sh.classes := by
  unfold preFocus outlinePhase
  split_ifs <;>
    simp [hl1_mem_classes, hl2_mem_classes, hlRemove1_mem_classes, applyOutline_mem_classes]

theorem mid_tab (b : Bool) (x : Shape) :
    (hlRemove1 (if b = true then restoreOutlineShape x else x)).tabindexAttr
      = x.tabindexAttr := by
  cases b <;> simp

theorem mid_ds4 (b : Bool) (x : Shape) :
    (hlRemove1 (if b = true then restoreOutlineShape x else x)).dsAddedTabindex
      = x.dsAddedTabindex := by
  cases b <;> simp

theorem mid_mem_foc (b : Bool) (x : Shape) :
    "shiny-focusable" ∈ (hlRemove1 (if b = true then restoreOutlineShape x else x)).classes
      ↔ "shiny-focusable" ∈ x.classes := by
  cases b <;>
    simp [hlRemove1_mem_classes, restoreOutlineShape_mem_classes]

theorem final_focusRemove_tab (b : Bool) (e : Shape) :
    (isTruthy e.dsAddedTabindex = false →
      (focusRemove1 (hlRemove1 (if b = true then restoreOutlineShape e else e))).tabindexAttr
        = e.tabindexAttr) ∧
    ("shiny-focusable" ∈ e.classes → isTruthy e.dsAddedTabindex = true →
      (focusRemove1 (hlRemove1 (if b = true then restoreOutlineShape e else e))).tabindexAttr
        = none) := by
  constructor
  · intro hd
    rw [focusRemove1_tabindex_of_skip _ (by rw [mid_ds4]; exact hd), mid_tab]
  · intro hc hd
    exact focusRemove1_tabindex_added _ ((mid_mem_foc b e).mpr hc) (by rw [mid_ds4]; exact hd)

theorem rPhase_tabindex (s : Settings) (sh : Shape)
    (hd4 : sh.dsAddedTabindex = none) (hc3 : "shiny-focusable" ∉ sh.classes) :
    (rPhase s sh).tabindexAttr = sh.tabindexAttr := by
  unfold rPhase
  rw [ePhase_eq]
  have hpt := preFocus_tab s sh
  have hpd : (preFocus s sh).dsAddedTabindex = none := by rw [preFocus_ds4]; exact hd4
  cases hf : s.focusIndicators
  · simp only [Bool.false_eq_true, if_false]
    have he_d : isTruthy (focusRemove1 (preFocus s sh)).dsAddedTabindex = false := by
      rw [focusRemove1_ds_of_skip _ (by rw [hpd]; rfl), hpd]
      rfl
    rw [(final_focusRemove_tab _ _).1 he_d,
      focusRemove1_tabindex_of_skip _ (by rw [hpd]; rfl), hpt]
  · simp only [if_true]
    rcases focusAdd1_cases (preFocus s sh) with ⟨ht, hd⟩ | ⟨hn, ht0, hdt, hcm⟩
    · have he_d : isTruthy (focusAdd1 (preFocus s sh)).dsAddedTabindex = false := by
        rw [hd, hpd]
        rfl
      rw [(final_focusRemove_tab _ _).1 he_d, ht, hpt]
    · have hshn : sh.tabindexAttr = none := by rw [← hpt, hn]
      rw [(final_focusRemove_tab _ _).2 hcm (by rw [hdt]; rfl), hshn]

theorem ePhase_mem_outlined_of_no (s : Settings) (sh : Shape)
    (hd1 : sh.dsOriginalStroke = none)
    (hbo : ¬ (s.outlineEnabled && capSel sh) = true) :
    "shiny-outlined" ∈ (ePhase s sh).classes ↔ "shiny-outlined" ∈ sh.classes := by
  unfold ePhase outlinePhase
  cases ho : s.outlineEnabled <;> cases hh : s.highlightEnabled <;>
    cases hf : s.focusIndicators <;>
    simp_all [capSel, isTruthy, hl1_mem_classes, hl2_mem_classes, hlRemove1_mem_classes,
      focusAdd1_mem_classes, focusRemove1_mem_classes, applyOutline_mem_classes]

theorem rPhase_not_outlined (s : Settings) (sh : Shape)
    (hd1 : sh.dsOriginalStroke = none) (hc1 : "shiny-outlined" ∉ sh.classes) :
    "shiny-outlined" ∉ (rPhase s sh).classes := by
  unfold rPhase
  intro hm
  rw [focusRemove1_mem_classes _ _ (by decide)] at hm
  rw [hlRemove1_mem_classes _ _ (by decide)] at hm
  by_cases hbo : (s.outlineEnabled && capSel sh) = true
  · rw [if_pos hbo] at hm
    exact not_mem_restoreOutlined _ hm
  · rw [if_neg hbo] at hm
    exact hc1 ((ePhase_mem_outlined_of_no s sh hd1 hbo).mp hm)

theorem rPhase_not_highlightable (s : Settings) (sh : Shape) :
    "shiny-highlightable" ∉ (rPhase s sh).classes := by
  unfold rPhase
  intro hm
  rw [focusRemove1_mem_classes _ _ (by decide)] at hm
  exact not_mem_hlRemove1 _ hm

theorem rPhase_not_focusable (s : Settings) (sh : Shape) :
    "shiny-focusable" ∉ (rPhase s sh).classes :=
  not_mem_focusRemove1 _

/-! ### World plumbing -/

theorem findSvg_setSvg {w : World} {i : Nat} {sv : SvgRoot} (hf : w.findSvg i = some sv)
    (sv' : SvgRoot) (hid : sv'.id = sv.id) : (w.setSvg sv').findSvg i = some sv' := by
  have hsvid : sv.id = i := by simpa using List.find?_some hf
  have hvi : sv'.id = i := hid.trans hsvid
  unfold World.findSvg at hf
  unfold World.findSvg World.setSvg
  dsimp only
  revert hf
  generalize w.svgs = l
  induction l with
  | nil => intro hf; cases hf
  | cons a tl ih =>
    intro hf
    by_cases ha : (a.id == i) = true
    · rw [List.map_cons]
      have h1 : (a.id == sv'.id) = true := by rw [hvi]; exact ha
      rw [if_pos h1]
      exact List.find?_cons_of_pos _ (by simp [hvi])
    · rw [List.map_cons]
      have h1 : ¬ ((a.id == sv'.id) = true) := by rw [hvi]; exact ha
      rw [if_neg h1]
      rw [List.find?_cons_of_neg (p := fun x : SvgRoot => x.id == i) _ ha]
      rw [List.find?_cons_of_neg (p := fun x : SvgRoot => x.id == i) _ ha] at hf
      exact ih hf

theorem getRec_setRec (w : World) (i : Nat) (r : Stored) :
    (w.setRec i r).getRec i = some r := by
  unfold World.getRec World.setRec
  dsimp only
  induction w.recs with
  | nil => simp [upsertRec]
  | cons p ps ih =>
    by_cases hp : p.1 == i
    · simp [upsertRec, hp]
    · simp only [upsertRec, hp, Bool.false_eq_true, if_false]
      rw [List.find?_cons_of_neg _ (by simpa using hp)]
      exact ih

theorem findSvg_setRec (w : World) (i j : Nat) (r : Stored) :
    (w.setRec j r).findSvg i = w.findSvg i := rfl

theorem getRec_setSvg (w : World) (i : Nat) (sv : SvgRoot) :
    (w.setSvg sv).getRec i = w.getRec i := rfl

theorem getRec_delRec (w : World) (i : Nat) : (w.delRec i).getRec i = none := by
  unfold World.getRec World.delRec
  dsimp only
  rw [List.find?_eq_none.mpr]
  · rfl
  · intro p hp
    have := (List.mem_filter.mp hp).2
    simpa using this

theorem findSvg_delRec (w : World) (i j : Nat) : (w.delRec j).findSvg i = w.findSvg i := rfl

/-! ## Claim C2 (amended theorem) -/

/-- A fresh one-path svg world for the enhancer witnesses. -/
def svgFresh : SvgRoot := { id := 1, filterStyle := "", classes := [], shapes := [shapeP] }

def worldFresh : World := { svgs := [svgFresh], embeds := [], recs := [] }

/-- C2 (amended): for an inline or animation-hosted graphic with no prior
record, whose shapes carry no leftover bookkeeping state and no tracked
attribute that is present with an empty-string value, `restore` after a single
`enhance(g, s)` returns every tracked attribute (stroke, stroke-width,
paint-order, filter, tab index) to its pre-enhancement value, removes all
marker classes, and deletes the record.  (As stated the claim fails for a
present-but-empty stroke/stroke-width and for plugin-embedded graphics with
reachable content — see `C2_counterexample`.) -/
theorem C2_theorem (w : World) (sv : SvgRoot) (s : Settings) (info : GraphicInfo)
    (hdt : info.dtype = "inline" ∨ info.dtype = "lottie")
    (hen : s.enabled = true)
    (hfind : w.findSvg info.elemId = some sv)
    (hrec : w.getRec info.elemId = none)
    (hids : (sv.shapes.map Shape.id).Nodup)
    (hfresh : ∀ sh ∈ sv.shapes, sh.dsOriginalStroke = none ∧
      sh.dsOriginalStrokeWidth = none ∧ sh.dsOriginalPaintOrder = none ∧
      sh.dsAddedTabindex = none ∧ "shiny-outlined" ∉ sh.classes ∧
      "shiny-focusable" ∉ sh.classes ∧ ¬ sh.stroke = some "" ∧
      ¬ sh.strokeWidth = some "") :
    ∃ sv2, (restore info.elemId (enhance info s w)).findSvg info.elemId = some sv2 ∧
      sv2.filterStyle = sv.filterStyle ∧
      "shiny-enhanced" ∉ sv2.classes ∧
      (restore info.elemId (enhance info s w)).getRec info.elemId = none ∧
      List.Forall₂ (fun a b =>
        b.stroke = a.stroke ∧ b.strokeWidth = a.strokeWidth ∧
        b.paintOrderStyle = a.paintOrderStyle ∧ b.tabindexAttr = a.tabindexAttr ∧
        "shiny-outlined" ∉ b.classes ∧ "shiny-highlightable" ∉ b.classes ∧
        "shiny-focusable" ∉ b.classes) sv.shapes sv2.shapes := by
  have heq : enhance info s w = enhanceInlineSVG info.elemId s w := by
    rcases hdt with h | h <;> simp [enhance, hen, h]
  set sv1 : SvgRoot :=
    { sv with
      shapes := sv.shapes.map (ePhase s)
      filterStyle := if s.contrastEnabled then
          combineFilter sv.filterStyle (contrastFilterFor s.contrastLevel)
        else sv.filterStyle
      classes := addClass "shiny-enhanced" sv.classes } with hsv1
  set st1 : Stored :=
    { originalFilter := sv.filterStyle
      modifiedShapes := if s.outlineEnabled then capturedIds sv.shapes else [] } with hst1
  have hW : enhance info s w = (w.setSvg sv1).setRec info.elemId st1 := by
    rw [heq]
    simp only [enhanceInlineSVG, hfind, hrec, enhanceInlineCore_fresh]
  have hW1find : (enhance info s w).findSvg info.elemId = some sv1 := by
    rw [hW, findSvg_setRec]
    exact findSvg_setSvg hfind sv1 rfl
  have hW1rec : (enhance info s w).getRec info.elemId = some st1 := by
    rw [hW]
    exact getRec_setRec _ _ _
  set sv2 : SvgRoot :=
    { sv1 with
      filterStyle := st1.originalFilter
      shapes := removeFocusIndicators (removeHighlighting
        (removeOutlines sv1.shapes st1.modifiedShapes))
      classes := removeClass "shiny-enhanced" sv1.classes } with hsv2
  have hRes : restore info.elemId (enhance info s w)
      = (((enhance info s w).setSvg sv2).delRec info.elemId) := by
    simp only [restore, hW1rec, hW1find]
  refine ⟨sv2, ?_, rfl, not_mem_removeClass _ _, ?_, ?_⟩
  · rw [hRes, findSvg_delRec]
    exact findSvg_setSvg hW1find sv2 rfl
  · rw [hRes]
    exact getRec_delRec _ _
  · have hshapes : sv2.shapes = sv.shapes.map (rPhase s) := by
      show removeFocusIndicators (removeHighlighting
        (removeOutlines (sv.shapes.map (ePhase s))
          (if s.outlineEnabled = true then capturedIds sv.shapes else []))) = _
      exact restore_shapes_map s sv.shapes hids
    rw [hshapes, List.forall₂_map_right_iff, List.forall₂_same]
    intro sh hm
    obtain ⟨hd1, hd2, hd3, hd4, hc1, hc3, hs1, hs2⟩ := hfresh sh hm
    exact ⟨rPhase_stroke s sh hd1 hs1, rPhase_strokeWidth s sh hd1 hd2 hs2,
      rPhase_paintOrder s sh hd1 hd3, rPhase_tabindex s sh hd4 hc3,
      rPhase_not_outlined s sh hd1 hc1, rPhase_not_highlightable s sh,
      rPhase_not_focusable s sh⟩

/-- Witness for C2 (amended) at a concrete fresh world. -/
theorem C2_witness :
    ((⟨"inline", 1⟩ : GraphicInfo).dtype = "inline" ∨
        (⟨"inline", 1⟩ : GraphicInfo).dtype = "lottie") ∧
      setOutline.enabled = true ∧
      worldFresh.findSvg 1 = some svgFresh ∧
      worldFresh.getRec 1 = none ∧
      (svgFresh.shapes.map Shape.id).Nodup ∧
      (∃ sv2, (restore 1 (enhance ⟨"inline", 1⟩ setOutline worldFresh)).findSvg 1
            = some sv2 ∧
          sv2.filterStyle = svgFresh.filterStyle ∧
          "shiny-enhanced" ∉ sv2.classes ∧
          (restore 1 (enhance ⟨"inline", 1⟩ setOutline worldFresh)).getRec 1 = none ∧
          List.Forall₂ (fun a b =>
            b.stroke = a.stroke ∧ b.strokeWidth = a.strokeWidth ∧
            b.paintOrderStyle = a.paintOrderStyle ∧ b.tabindexAttr = a.tabindexAttr ∧
            "shiny-outlined" ∉ b.classes ∧ "shiny-highlightable" ∉ b.classes ∧
            "shiny-focusable" ∉ b.classes) svgFresh.shapes sv2.shapes) :=
  ⟨Or.inl rfl, rfl, rfl, rfl, by decide,
    C2_theorem worldFresh svgFresh setOutline ⟨"inline", 1⟩ (Or.inl rfl) rfl rfl rfl
      (by decide) (by decide)⟩

/-! ## Claim C5 (amended theorem) -/

/-- The per-shape effect of re-enhancing an already-enhanced shape with the
outline layer disabled (first enhancement done with it enabled). -/
def rePhase (s1 s2 : Settings) (sh : Shape) : Shape :=
  let g := if capSel sh then restoreOutlineShape (ePhase s1 sh) else ePhase s1 sh
  let b := if s2.highlightEnabled then hl2 s2 (hl1 s2 g) else hlRemove1 g
  if s2.focusIndicators then focusAdd1 b else focusRemove1 b

theorem enhanceInlineCore_off (s : Settings) (sv : SvgRoot) (st : Stored)
    (ho : s.outlineEnabled = false) :
    enhanceInlineCore s sv (some st)
      = ({ sv with
            shapes := (if s.focusIndicators then addFocusIndicators
                else removeFocusIndicators)
              ((if s.highlightEnabled then addHighlighting s else removeHighlighting)
                (removeOutlines sv.shapes st.modifiedShapes))
            filterStyle := if s.contrastEnabled then
                combineFilter st.originalFilter (contrastFilterFor s.contrastLevel)
              else st.originalFilter
            classes := addClass "shiny-enhanced" sv.classes }, st) := by
  unfold enhanceInlineCore
  cases hh : s.highlightEnabled <;> cases hf : s.focusIndicators <;> simp [ho, hh, hf]

theorem second_shapes_map (s1 s2 : Settings) (shs : List Shape)
    (hids : (shs.map Shape.id).Nodup) :
    (if s2.focusIndicators then addFocusIndicators else removeFocusIndicators)
      ((if s2.highlightEnabled then addHighlighting s2 else removeHighlighting)
        (removeOutlines (shs.map (ePhase s1)) (capturedIds shs)))
      = shs.map (rePhase s1 s2) := by
  rw [removeOutlines_eq_map _ _ (capturedIds_nodup hids)]
  have hg : (shs.map (ePhase s1)).map
        (fun sh => if sh.id ∈ capturedIds shs then restoreOutlineShape sh else sh)
      = shs.map (fun sh =>
          if capSel sh then restoreOutlineShape (ePhase s1 sh) else ePhase s1 sh) := by
    rw [List.map_map]
    refine List.map_congr_left (fun sh hm => ?_)
    simp only [Function.comp_apply]
    rw [ePhase_id]
    by_cases hc : capSel sh = true
    · rw [if_pos ((mem_capturedIds hids hm).mpr hc), if_pos hc]
    · rw [if_neg (fun hmem => hc ((mem_capturedIds hids hm).mp hmem)),
        if_neg (by simpa using hc)]
  rw [List.map_map] at hg ⊢
  rw [hg]
  unfold rePhase
  cases hh : s2.highlightEnabled <;> cases hf : s2.focusIndicators <;>
    simp [addHighlighting, removeHighlighting, addFocusIndicators, removeFocusIndicators,
      List.map_map, Function.comp]

theorem restore_ePhase_stroke (s : Settings) (sh : Shape)
    (hcap : capSel sh = true) (hd1 : sh.dsOriginalStroke = none)
    (hs1 : ¬ sh.stroke = some "") (ho : s.outlineEnabled = true) :
    (restoreOutlineShape (ePhase s sh)).stroke = sh.stroke := by
  have hsel : outlineSelected sh = true := (Eq.mp (Bool.and_eq_true _ _) hcap).1
  have hds : (ePhase s sh).dsOriginalStroke = some (sh.stroke.getD "") := by
    unfold ePhase outlinePhase
    cases hh : s.highlightEnabled <;> cases hf : s.focusIndicators <;>
      simp [ho, hh, hf, hsel, hd1, isTruthy]
  rcases hst : sh.stroke with _ | v
  · rw [hst] at hds
    simp [hds, isTruthy]
  · have hv : ¬ v = "" := fun he => hs1 (by rw [hst, he])
    rw [hst] at hds
    simp [hds, isTruthy, hv, hst]

theorem restore_ePhase_strokeWidth (s : Settings) (sh : Shape)
    (hcap : capSel sh = true) (hd1 : sh.dsOriginalStroke = none)
    (hd2 : sh.dsOriginalStrokeWidth = none)
    (hs2 : ¬ sh.strokeWidth = some "") (ho : s.outlineEnabled = true) :
    (restoreOutlineShape (ePhase s sh)).strokeWidth = sh.strokeWidth := by
  have hsel : outlineSelected sh = true := (Eq.mp (Bool.and_eq_true _ _) hcap).1
  have hds : (ePhase s sh).dsOriginalStrokeWidth = some (sh.strokeWidth.getD "") := by
    unfold ePhase outlinePhase
    cases hh : s.highlightEnabled <;> cases hf : s.focusIndicators <;>
      simp [ho, hh, hf, hsel, hd1, isTruthy]
  rcases hst : sh.strokeWidth with _ | v
  · rw [hst] at hds
    simp [hds, isTruthy]
  · have hv : ¬ v = "" := fun he => hs2 (by rw [hst, he])
    rw [hst] at hds
    simp [hds, isTruthy, hv, hst]

theorem restore_ePhase_paintOrder (s : Settings) (sh : Shape)
    (hcap : capSel sh = true) (hd1 : sh.dsOriginalStroke = none)
    (hd3 : sh.dsOriginalPaintOrder = none) (ho : s.outlineEnabled = true) :
    (restoreOutlineShape (ePhase s sh)).paintOrderStyle = sh.paintOrderStyle := by
  have hsel : outlineSelected sh = true := (Eq.mp (Bool.and_eq_true _ _) hcap).1
  have hds : (ePhase s sh).dsOriginalPaintOrder = some sh.paintOrderStyle := by
    unfold ePhase outlinePhase
    cases hh : s.highlightEnabled <;> cases hf : s.focusIndicators <;>
      simp [ho, hh, hf, hsel, hd1, isTruthy]
  simp [hds]

theorem rePhase_stroke (s1 s2 : Settings) (sh : Shape)
    (hcap : capSel sh = true) (hd1 : sh.dsOriginalStroke = none)
    (hs1 : ¬ sh.stroke = some "") (ho1 : s1.outlineEnabled = true) :
    (rePhase s1 s2 sh).stroke = sh.stroke := by
  unfold rePhase
  dsimp only
  rw [if_pos hcap]
  cases hh : s2.highlightEnabled <;> cases hf : s2.focusIndicators <;>
    simp only [Bool.false_eq_true, if_false, if_true, hl1_stroke, hl2_stroke,
      hlRemove1_stroke, focusAdd1_stroke, focusRemove1_stroke] <;>
    exact restore_ePhase_stroke s1 sh hcap hd1 hs1 ho1

theorem rePhase_strokeWidth (s1 s2 : Settings) (sh : Shape)
    (hcap : capSel sh = true) (hd1 : sh.dsOriginalStroke = none)
    (hd2 : sh.dsOriginalStrokeWidth = none)
    (hs2 : ¬ sh.strokeWidth = some "") (ho1 : s1.outlineEnabled = true) :
    (rePhase s1 s2 sh).strokeWidth = sh.strokeWidth := by
  unfold rePhase
  dsimp only
  rw [if_pos hcap]
  cases hh : s2.highlightEnabled <;> cases hf : s2.focusIndicators <;>
    simp only [Bool.false_eq_true, if_false, if_true, hl1_strokeWidth, hl2_strokeWidth,
      hlRemove1_strokeWidth, focusAdd1_strokeWidth, focusRemove1_strokeWidth] <;>
    exact restore_ePhase_strokeWidth s1 sh hcap hd1 hd2 hs2 ho1

theorem rePhase_paintOrder (s1 s2 : Settings) (sh : Shape)
    (hcap : capSel sh = true) (hd1 : sh.dsOriginalStroke = none)
    (hd3 : sh.dsOriginalPaintOrder = none) (ho1 : s1.outlineEnabled = true) :
    (rePhase s1 s2 sh).paintOrderStyle = sh.paintOrderStyle := by
  unfold rePhase
  dsimp only
  rw [if_pos hcap]
  cases hh : s2.highlightEnabled <;> cases hf : s2.focusIndicators <;>
    simp only [Bool.false_eq_true, if_false, if_true, hl1_paintOrderStyle, hl2_paintOrderStyle,
      hlRemove1_paintOrderStyle, focusAdd1_paintOrderStyle, focusRemove1_paintOrderStyle] <;>
    exact restore_ePhase_paintOrder s1 sh hcap hd1 hd3 ho1

theorem rePhase_not_outlined (s1 s2 : Settings) (sh : Shape) (hcap : capSel sh = true) :
    "shiny-outlined" ∉ (rePhase s1 s2 sh).classes := by
  unfold rePhase
  dsimp only
  rw [if_pos hcap]
  intro hm
  cases hh : s2.highlightEnabled <;> cases hf : s2.focusIndicators <;>
    simp_all [hl1_mem_classes, hl2_mem_classes, hlRemove1_mem_classes,
      focusAdd1_mem_classes, focusRemove1_mem_classes, not_mem_restoreOutlined]

/-- C5 (amended): re-enhancing an already-enhanced inline graphic with the
outline layer disabled (no intervening restore) restores every
previously-captured shape's stroke, stroke-width and paint-order from its
record and removes the outline marker class from those shapes; however the
per-root modified-shapes list is NOT cleared — the record still holds exactly
the captured shapes (see `C5_counterexample`). -/
theorem C5_theorem (w : World) (sv : SvgRoot) (s1 s2 : Settings) (info : GraphicInfo)
    (hdt : info.dtype = "inline" ∨ info.dtype = "lottie")
    (hen1 : s1.enabled = true) (ho1 : s1.outlineEnabled = true)
    (hen2 : s2.enabled = true) (ho2 : s2.outlineEnabled = false)
    (hfind : w.findSvg info.elemId = some sv)
    (hrec : w.getRec info.elemId = none)
    (hids : (sv.shapes.map Shape.id).Nodup)
    (hfresh : ∀ sh ∈ sv.shapes, sh.dsOriginalStroke = none ∧
      sh.dsOriginalStrokeWidth = none ∧ sh.dsOriginalPaintOrder = none ∧
      ¬ sh.stroke = some "" ∧ ¬ sh.strokeWidth = some "") :
    ∃ sv2 st2,
      (enhance info s2 (enhance info s1 w)).findSvg info.elemId = some sv2 ∧
      (enhance info s2 (enhance info s1 w)).getRec info.elemId = some st2 ∧
      st2.modifiedShapes = capturedIds sv.shapes ∧
      List.Forall₂ (fun a b => capSel a = true →
        b.stroke = a.stroke ∧ b.strokeWidth = a.strokeWidth ∧
        b.paintOrderStyle = a.paintOrderStyle ∧
        "shiny-outlined" ∉ b.classes) sv.shapes sv2.shapes := by
  have heq1 : enhance info s1 w = enhanceInlineSVG info.elemId s1 w := by
    rcases hdt with h | h <;> simp [enhance, hen1, h]
  have heq2 : enhance info s2 (enhance info s1 w)
      = enhanceInlineSVG info.elemId s2 (enhance info s1 w) := by
    rcases hdt with h | h <;> simp [enhance, hen2, h]
  set sv1 : SvgRoot :=
    { sv with
      shapes := sv.shapes.map (ePhase s1)
      filterStyle := if s1.contrastEnabled then
          combineFilter sv.filterStyle (contrastFilterFor s1.contrastLevel)
        else sv.filterStyle
      classes := addClass "shiny-enhanced" sv.classes } with hsv1
  set st1 : Stored :=
    { originalFilter := sv.filterStyle
      modifiedShapes := if s1.outlineEnabled then capturedIds sv.shapes else [] } with hst1
  have hW : enhance info s1 w = (w.setSvg sv1).setRec info.elemId st1 := by
    rw [heq1]
    simp only [enhanceInlineSVG, hfind, hrec, enhanceInlineCore_fresh]
  have hW1find : (enhance info s1 w).findSvg info.elemId = some sv1 := by
    rw [hW, findSvg_setRec]
    exact findSvg_setSvg hfind sv1 rfl
  have hW1rec : (enhance info s1 w).getRec info.elemId = some st1 := by
    rw [hW]
    exact getRec_setRec _ _ _
  set sv2 : SvgRoot :=
    { sv1 with
      shapes := (if s2.focusIndicators then addFocusIndicators
          else removeFocusIndicators)
        ((if s2.highlightEnabled then addHighlighting s2 else removeHighlighting)
          (removeOutlines sv1.shapes st1.modifiedShapes))
      filterStyle := if s2.contrastEnabled then
          combineFilter st1.originalFilter (contrastFilterFor s2.contrastLevel)
        else st1.originalFilter
      classes := addClass "shiny-enhanced" sv1.classes } with hsv2
  have hW2 : enhance info s2 (enhance info s1 w)
      = ((enhance info s1 w).setSvg sv2).setRec info.elemId st1 := by
    rw [heq2]
    simp only [enhanceInlineSVG, hW1find, hW1rec, enhanceInlineCore_off s2 sv1 st1 ho2]
  refine ⟨sv2, st1, ?_, ?_, ?_, ?_⟩
  · rw [hW2, findSvg_setRec]
    exact findSvg_setSvg hW1find sv2 rfl
  · rw [hW2]
    exact getRec_setRec _ _ _
  · rw [hst1]
    simp [ho1]
  · have hshapes : sv2.shapes = sv.shapes.map (rePhase s1 s2) := by
      show (if s2.focusIndicators then addFocusIndicators else removeFocusIndicators)
        ((if s2.highlightEnabled then addHighlighting s2 else removeHighlighting)
          (removeOutlines (sv.shapes.map (ePhase s1)) st1.modifiedShapes)) = _
      rw [hst1]
      simp only [ho1, if_true]
      exact second_shapes_map s1 s2 sv.shapes hids
    rw [hshapes, List.forall₂_map_right_iff, List.forall₂_same]
    intro sh hm hcap
    obtain ⟨hd1, hd2, hd3, hs1, hs2⟩ := hfresh sh hm
    exact ⟨rePhase_stroke s1 s2 sh hcap hd1 hs1 ho1,
      rePhase_strokeWidth s1 s2 sh hcap hd1 hd2 hs2 ho1,
      rePhase_paintOrder s1 s2 sh hcap hd1 hd3 ho1,
      rePhase_not_outlined s1 s2 sh hcap⟩

/-- Witness for C5 (amended) at a concrete fresh world. -/
theorem C5_witness :
    setOutline.enabled = true ∧ setOutline.outlineEnabled = true ∧
      setOutlineOff.enabled = true ∧ setOutlineOff.outlineEnabled = false ∧
      worldFresh.findSvg 1 = some svgFresh ∧ worldFresh.getRec 1 = none ∧
      (∃ sv2 st2,
        (enhance ⟨"inline", 1⟩ setOutlineOff
            (enhance ⟨"inline", 1⟩ setOutline worldFresh)).findSvg 1 = some sv2 ∧
        (enhance ⟨"inline", 1⟩ setOutlineOff
            (enhance ⟨"inline", 1⟩ setOutline worldFresh)).getRec 1 = some st2 ∧
        st2.modifiedShapes = capturedIds svgFresh.shapes ∧
        List.Forall₂ (fun a b => capSel a = true →
          b.stroke = a.stroke ∧ b.strokeWidth = a.strokeWidth ∧
          b.paintOrderStyle = a.paintOrderStyle ∧
          "shiny-outlined" ∉ b.classes) svgFresh.shapes sv2.shapes) :=
  ⟨rfl, rfl, rfl, rfl, rfl, rfl,
    C5_theorem worldFresh svgFresh setOutline setOutlineOff ⟨"inline", 1⟩ (Or.inl rfl)
      rfl rfl rfl rfl rfl rfl (by decide) (by decide)⟩

/-! ## Claim C6 -/

/-- C6: for every graphic `g` and settings snapshot `s` with `s.enabled = false`,
`enhance(g, s)` leaves the DOM and the record store exactly as
`restore(g.primaryNode)` would, performing no other treatment (the source
short-circuits to `this.restore(svgInfo.element); return`). -/
theorem C6_theorem (info : GraphicInfo) (s : Settings) (w : World)
    (h : s.enabled = false) : enhance info s w = restore info.elemId w := by
  simp [enhance, h]

/-- Witness for C6 at a concrete disabled snapshot and world. -/
theorem C6_witness :
    setOff.enabled = false ∧
      enhance ⟨"inline", 1⟩ setOff worldOne = restore 1 worldOne :=
  ⟨rfl, C6_theorem ⟨"inline", 1⟩ setOff worldOne rfl⟩

/-! ## Claim C9 -/

/-- C9: for every plugin-embedded graphic, `enhance` never lets the
introspection escape as an exception (the embedding is a total function whose
`.error` branch is consumed): when the nested document yields an inline root,
the full inline treatment is applied to that root; when the access throws
(cross-origin) or no root is found, the filter-only fallback is applied to the
embedding element. -/
theorem C9_theorem (i : Nat) (s : Settings) (w : World) (e : EmbedElem)
    (hfind : w.findEmbed i = some e) :
    (∃ j, introspect e = .ok (some j) ∧
        enhanceEmbeddedSVG i s w = enhanceInlineSVG j s w) ∨
      ((introspect e = .error () ∨ introspect e = .ok none) ∧
        enhanceEmbeddedSVG i s w = enhanceImgSVG i s w) := by
  unfold enhanceEmbeddedSVG
  rw [hfind]
  cases h : e.content <;> simp [introspect, h]

/-- Witness for C9 at a concrete accessible `<object>` element. -/
theorem C9_witness :
    worldEmbed.findEmbed 10 = some embedObj ∧
      ((∃ j, introspect embedObj = .ok (some j) ∧
          enhanceEmbeddedSVG 10 setOutline worldEmbed
            = enhanceInlineSVG j setOutline worldEmbed) ∨
        ((introspect embedObj = .error () ∨ introspect embedObj = .ok none) ∧
          enhanceEmbeddedSVG 10 setOutline worldEmbed
            = enhanceImgSVG 10 setOutline worldEmbed)) :=
  ⟨rfl, C9_theorem 10 setOutline worldEmbed embedObj rfl⟩

/-! ## Claim C3 -/

/-- C3 is a code bug: calling `enhance(g, s)` twice with the identical snapshot
does NOT produce the same DOM attribute state as calling it once.  On an svg
whose two paths had no (or an empty) original stroke, the first call writes
`data-shiny-original-stroke=""`; because `""` is falsy, the second call's
"store original values if not already stored" guard re-fires and overwrites the
attribute with the already-enhanced values, so the resulting DOM attribute
state differs. -/
theorem C3_theorem :
    (((enhance ⟨"inline", 1⟩ setOutline worldOne).findSvg 1).map
        (fun sv => sv.shapes.map Shape.dsOriginalStroke) = some [some "", some ""]) ∧
      (((enhance ⟨"inline", 1⟩ setOutline
            (enhance ⟨"inline", 1⟩ setOutline worldOne)).findSvg 1).map
          (fun sv => sv.shapes.map Shape.dsOriginalStroke)
        = some [some "#00F", some "#00F"]) ∧
      ((enhance ⟨"inline", 1⟩ setOutline worldOne).findSvg 1).map SvgRoot.shapes
        ≠ ((enhance ⟨"inline", 1⟩ setOutline
              (enhance ⟨"inline", 1⟩ setOutline worldOne)).findSvg 1).map SvgRoot.shapes :=
  ⟨rfl, rfl, by decide⟩

/-! ## Claim C4 -/

/-- C4 is a code bug: the original stroke/stroke-width/paint-order are NOT
captured only on the first enhancement, and the empty-string sentinel does NOT
distinguish an absent attribute from a present empty-string attribute.
`shapeP` (stroke absent) and `shapeQ` (stroke present, empty) are captured
identically as `""`; and, the guard `!shape.dataset.shinyOriginalStroke` being
true again for the falsy `""`, the second enhance call overwrites the captured
originals with the enhanced values and pushes both shapes onto
`modifiedShapes` a second time. -/
theorem C4_theorem :
    shapeP.stroke = none ∧ shapeQ.stroke = some "" ∧
      (((enhance ⟨"inline", 1⟩ setOutline worldOne).findSvg 1).map
          (fun sv => sv.shapes.map Shape.dsOriginalStroke) = some [some "", some ""]) ∧
      (((enhance ⟨"inline", 1⟩ setOutline worldOne).getRec 1).map Stored.modifiedShapes
        = some [2, 3]) ∧
      (((enhance ⟨"inline", 1⟩ setOutline
            (enhance ⟨"inline", 1⟩ setOutline worldOne)).findSvg 1).map
          (fun sv => sv.shapes.map Shape.dsOriginalStroke)
        = some [some "#00F", some "#00F"]) ∧
      (((enhance ⟨"inline", 1⟩ setOutline
            (enhance ⟨"inline", 1⟩ setOutline worldOne)).getRec 1).map Stored.modifiedShapes
        = some [2, 3, 2, 3]) :=
  ⟨rfl, rfl, rfl, rfl, rfl, rfl⟩

/-! ## Claim C5 -/

/-- Counterexample to C5 as stated: re-enhancing with the outline disabled does
NOT clear the per-root modified-shapes list — `removeOutlines` iterates
`stored.modifiedShapes` but never empties it, so after the second call the
record still lists both shapes. -/
theorem C5_counterexample :
    ((enhance ⟨"inline", 1⟩ setOutlineOff
        (enhance ⟨"inline", 1⟩ setOutline worldOne)).getRec 1).map Stored.modifiedShapes
      = some [2, 3] ∧ ([2, 3] : List Nat) ≠ [] :=
  ⟨rfl, by decide⟩

/-! ## Claim C2 -/

/-- Counterexample to C2 as stated.  Two failure modes: (a) a shape whose
stroke attribute was present with the empty-string value (`shapeQ`) is restored
to an absent attribute, not to its pre-enhancement value, because the capture
`getAttribute('stroke') || ''` conflates absent with empty; (b) for a
plugin-embedded graphic whose inner document is reachable, the enhancement
record is keyed on the inner root, so `restore` on the graphic's primary node
(the `<object>` element) is a no-op and the inner shape keeps the enhanced
stroke. -/
theorem C2_counterexample :
    ((worldOne.findSvg 1).map (fun sv => sv.shapes.map Shape.stroke)
        = some [none, some ""]) ∧
      (((restore 1 (enhance ⟨"inline", 1⟩ setOutline worldOne)).findSvg 1).map
          (fun sv => sv.shapes.map Shape.stroke) = some [none, none]) ∧
      (restore 10 (enhance ⟨"object", 10⟩ setOutline worldEmbed)
        = enhance ⟨"object", 10⟩ setOutline worldEmbed) ∧
      (((enhance ⟨"object", 10⟩ setOutline worldEmbed).findSvg 20).map
          (fun sv => sv.shapes.map Shape.stroke) = some [some "#00F"]) ∧
      ((worldEmbed.findSvg 20).map (fun sv => sv.shapes.map Shape.stroke)
        = some [some "black"]) :=
  ⟨rfl, rfl, rfl, rfl, rfl⟩

/-! ## Claim C7 -/

/-- C7 is a code bug: `stop()` replaces the `shadowObservers` WeakMap but never
calls `disconnect()` on the observers in it (its own comment says "Disconnect
all shadow observers"), and it leaves `onSVGDetected` set.  After starting on a
document with one observed shadow root and then stopping, the shadow observer
is still attached, and an svg inserted into that shadow root is reported to
`onDetected` after `stop()`. -/
theorem C7_theorem :
    (stop (start [hostEmpty] dInit)).reported = [] ∧
      (stop (start [hostEmpty] dInit)).shadowAttached = [5] ∧
      (fireShadowInsert 5 svgNode9 (stop (start [hostEmpty] dInit))).reported
        = [⟨"inline", 9, "svg"⟩] :=
  ⟨rfl, rfl, rfl⟩

/-! ## Claim C8 -/

/-- Counterexample to C8 as stated: `stop()` does not discard the seen-set
(`detectedSVGs` is a constructor-initialized WeakSet that `stop` never
resets), so after `stop()` followed by a new `start()` on the unchanged
document, the svg that was reported in the first session is still in the
seen-set and is NOT reported again — it has exactly one report over both
sessions, not two. -/
theorem C8_counterexample :
    9 ∈ (stop (start [svgNode9] dInit)).seen ∧
      countId 9 (start [svgNode9] (stop (start [svgNode9] dInit))).reported = 1 :=
  ⟨by decide, by decide⟩

/-! ## Claim C1 -/

/-- Counterexample to C1 as stated: with the detector Active on an (initially
empty) document, inserting a subtree that carries an inline svg two shadow-root
levels below the inserted node fires the mutation handler, yet the svg is never
reported: `checkNodeForSVG` reaches only the svgs in the inserted node's light
tree and directly inside one level of shadow roots, so the node ends up
reported zero times, not exactly once. -/
theorem C1_counterexample :
    InTree svgNode9 hostOuter ∧ svgNode9.tag = "svg" ∧
      (start [] dInit).observerActive = true ∧
      countId 9 (fireLightInsert hostOuter (start [] dInit)).reported = 0 := by
  refine ⟨?_, rfl, rfl, by decide⟩
  have h0 : InTree svgNode9 hostInner :=
    InTree.viaShadow rfl (by show svgNode9 ∈ [svgNode9]; simp) (InTree.refl svgNode9)
  exact InTree.viaShadow rfl (by show hostInner ∈ [hostInner]; simp) h0

end Shiny
